import Mathlib

/-!
Verification of the KVM/ARM software MMU from `arch/arm/kvm/arm_mmu.c`:
the guest page-table walker (`gva_to_gfn` and its helpers) and the shadow
page-table manager (`map_gva_to_pfn`, `unmap_gva`, `unmap_gva_section`,
`kvm_free_l1_shadow`, `kvm_switch_host_vectors`, `kvm_generate_mmu_fault`).

Machine words are modelled as `Nat`; every bit operation of the C source is
reproduced with `&&&`, `|||`, `^^^`, `<<<`, `>>>` on the exact masks of the
source.  The build embedded is the `__LINUX_ARM_ARCH__ >= 6` (ARMv6) build of
the file, with the runtime extended-paging flag (`kvm_mmu_xp`) carried
explicitly.  A `BUG()` / `KVMARM_NOT_IMPLEMENTED()` halt is modelled as the
result `none`; fallible paths return `some` of a C error code and the
(possibly partially updated) state.
-/

namespace ArmMmu

/-! ## Constants from `arch/arm/kvm/arm_mmu.c` -/

def SECTION_BASE_MASK : Nat := 0xfff00000
def SECTION_BASE_INDEX_MASK : Nat := 0x000fffff
def SUP_BASE_INDEX_MASK : Nat := 0x00ffffff

def VA_L1_IDX_MASK : Nat := 0xfff <<< 20
def VA_L1_IDX_SHIFT : Nat := 18
def VA_L2_IDX_MASK : Nat := 0xff <<< 12
def VA_L2_IDX_SHIFT : Nat := 10

def L1_TABLE_ENTRIES : Nat := 1 <<< 12
-- L1_COARSE_MASK is (~0x3ff) on a 32-bit int in the source
def L1_COARSE_MASK : Nat := 0xfffffc00
def L1_DOMAIN_SHIFT : Nat := 5
def L1_DOMAIN_MASK : Nat := 0xf <<< L1_DOMAIN_SHIFT
def L1_SECTION_AP_SHIFT : Nat := 10
def L1_SECTION_AP_MASK : Nat := 0x3 <<< L1_SECTION_AP_SHIFT

def L2_TABLE_ENTRIES : Nat := 256

def L2_TYPE_MASK : Nat := 0x3
def L2_TYPE_FAULT : Nat := 0x0
def L2_TYPE_LARGE : Nat := 0x1
def L2_TYPE_SMALL : Nat := 0x2

def L1_SECTION_TYPE_MASK : Nat := 1 <<< 18
def L1_SECTION_TYPE_SECTION : Nat := 0

def L1_SUP_BASE_MASK : Nat := 0xff <<< 24
def L1_SUP_BASE_LOW_SHIFT : Nat := 20
def L1_SUP_BASE_HIGH_SHIFT : Nat := 5

def L2_EXT_SMALL_BASE_MASK : Nat := 0xfffff <<< 12
def VA_EXT_SMALL_INDEX_MASK : Nat := 0xfff

def L2_TYPE_EXT_SMALL : Nat := 0x3
def L2_XP_TYPE_EXT_SMALL : Nat := 0x2

def L2_SMALL_BASE_MASK : Nat := 0xfffff <<< 12
def VA_SMALL_INDEX_MASK : Nat := 0xfff

def PAGE_SHIFT : Nat := 12

/-! ## Constants from `arch/arm/include/asm/kvm_arm.h` -/

def FSR_TYPE_MASK : Nat := 0xf
def FSR_TRANS_SEC : Nat := 0x5
def FSR_TRANS_PAGE : Nat := 0x7
def FSR_DOMAIN_SEC : Nat := 0x9
def FSR_DOMAIN_PAG : Nat := 0xb
def FSR_PERM_SEC : Nat := 0xd
def FSR_PERM_PAGE : Nat := 0xf

def EXCEPTION_VECTOR_HIGH : Nat := 0xffff0000
def EXCEPTION_VECTOR_LOW : Nat := 0x00000000

/-! ## Constants from `arch/arm/include/asm/kvm_asm.h` -/

def ARM_EXCEPTION_PREF_ABORT : Nat := 3
def ARM_EXCEPTION_DATA_ABORT : Nat := 4

/-! ## C error codes used by the source -/

def ENOMEM_ERR : Int := -12
def EFAULT_ERR : Int := -14
def EINVAL_ERR : Int := -22

/-! ## Modelled constants

The following declarations come from headers of this repository that are not
under `src/` (`asm/kvm_mmu.h`, `asm/domain.h`); they are modelled from the
spec, faithful to its words and to the arithmetic the source performs with
them. -/

-- Modelled from the spec: `asm/domain.h` is missing from src/.  Spec section
-- 4.2: the domain-access-control register holds 2 bits per domain with the
-- classes No-Access / Client / Manager; `l1_domain_access` masks the register
-- with `domain_val(domain, DOMAIN_MANAGER) = 3 <<< (2*domain)`, fixing the
-- standard ARM encoding 0 = no-access, 1 = client, 3 = manager.
def DOMAIN_NOACCESS : Nat := 0
def DOMAIN_CLIENT : Nat := 1
def DOMAIN_MANAGER : Nat := 3

/-- The `domain_val(dom, type)` macro of `asm/domain.h`. -/
def domain_val (dom ty : Nat) : Nat := ty <<< (2 * dom)

-- Modelled from the spec: `asm/kvm_mmu.h` is missing from src/.  Spec section
-- 3: an L1 descriptor is a tagged variant Fault / Section / Supersection /
-- Coarse selected by the low-order type bits, the architectural encoding
-- being 0 = fault, 1 = coarse, 2 = section (supersections are sections with
-- bit 18 set, see `is_supersection`).
def L1_TYPE_MASK : Nat := 0x3
def L1_TYPE_FAULT : Nat := 0x0
def L1_TYPE_COARSE : Nat := 0x1
def L1_TYPE_SECTION : Nat := 0x2

-- Modelled from the spec: the KVM_AP_XXXXX access-right values are declared
-- in a header missing from src/.  They form the three-valued right
-- none / read-only / read-write of spec section 4.2.
def KVM_AP_NONE : Nat := 0
def KVM_AP_RDONLY : Nat := 1
def KVM_AP_RDWRITE : Nat := 2

-- The reserved "special domain" of spec section 4.2/4.5.  Its value is fixed
-- by the source: `mapping_is_guest_writable` computes
-- `(c3_DACR & 0x3fffffff) | domain_val(KVM_SPECIAL_DOMAIN, DOMAIN_CLIENT)`,
-- clearing exactly the 2-bit field of domain 15 before re-setting it, so
-- KVM_SPECIAL_DOMAIN = 15.
def KVM_SPECIAL_DOMAIN : Nat := 15

/-! ## Pure helpers -/

/-- Clear the bits of `m` in `x`: width-independent form of the C statement
`x &= ~m` on 32-bit words (identical for all `x < 2^32`, and well defined for
the unbounded frame numbers of the model). -/
def clearBits (x m : Nat) : Nat := x ^^^ (x &&& m)

/-- Modelled from the spec: `kvm_decode_ap` is declared in a header missing
from src/.  Spec section 4.2: with domain Client the per-page
access-permission bits are interpreted per current privilege level; the
standard ARM interpretation of the 2-bit AP field (S = R = 0) is
AP 0: no access for anybody; AP 1: privileged read-write, user none;
AP 2: privileged read-write, user read-only; AP 3: read-write for both. -/
def kvm_decode_ap (ap uaccess : Nat) : Nat :=
  if uaccess = 0 then
    if ap &&& 0x3 = 0 then KVM_AP_NONE else KVM_AP_RDWRITE
  else
    if ap &&& 0x3 = 0 ∨ ap &&& 0x3 = 1 then KVM_AP_NONE
    else if ap &&& 0x3 = 2 then KVM_AP_RDONLY
    else KVM_AP_RDWRITE

/-- Modelled from the spec: `calc_aps` is not under src/.  Spec section 4.4
`install`: derive the combined VMSA access-permission encoding and the `apx`
bit from the privileged and user rights (the encode direction of section
4.1), inverse to the interpretation in `kvm_decode_ap`:
apx 0 with ap 1/2/3 for privileged read-write and user none/ro/rw,
apx 1 with ap 1/2 for privileged read-only and user none/ro. -/
def calc_aps (priv_ap user_ap : Nat) : Nat × Nat :=
  if priv_ap = KVM_AP_RDWRITE then
    if user_ap = KVM_AP_NONE then (1, 0)
    else if user_ap = KVM_AP_RDONLY then (2, 0)
    else (3, 0)
  else if priv_ap = KVM_AP_RDONLY then
    if user_ap = KVM_AP_NONE then (1, 1) else (2, 1)
  else (0, 0)

/-- `is_supersection` from the source (ARMv6 build): bit 18 of the L1 entry. -/
def is_supersection (l1_entry : Nat) : Bool :=
  !((l1_entry &&& L1_SECTION_TYPE_MASK) = L1_SECTION_TYPE_SECTION)

/-- `l1_domain_access` from the source, as a pure function of the guest DACR
and the L1 entry.  Returns (domain access type, domain number): the source
stores the domain number into `map_info->domain_number` and returns
`(dacr & domain_val(domain, DOMAIN_MANAGER)) >> (2*domain)`. -/
def l1_domain_access (dacr l1_entry : Nat) : Nat × Nat :=
  let domain :=
    if is_supersection l1_entry then 0
    else (l1_entry &&& L1_DOMAIN_MASK) >>> L1_DOMAIN_SHIFT
  ((dacr &&& domain_val domain DOMAIN_MANAGER) >>> (2 * domain), domain)

/-! ## The guest walker -/

/-- `struct map_info`: the transient decode record produced by the walker. -/
structure MapInfo where
  domain_number : Nat := 0
  ap : Nat := 0
  apx : Nat := 0
  xn : Nat := 0
  cache_bits : Nat := 0
deriving Repr, DecidableEq

/-- The walker's environment: the per-VCPU registers and the external
guest-memory-read interface consumed by `gva_to_gfn`.
`gmem` models `kvm_read_guest` via `get_guest_pgtable_entry`: `none` is a
read failure, propagated as the negative error `EFAULT_ERR`.
`invisible_gfn` abstracts the `invisible_gfn()` scan of the registered
memory slots: a frame number not visible to the guest. -/
structure WalkCtx where
  mmu_enabled : Bool
  mmu_xp : Bool
  dacr : Nat
  guest_ttbr : Nat
  gmem : Nat → Option Nat
  invisible_gfn : Nat

/-- Result of a walk or of an L2 decode step: the C return value, the `gfn`
out-parameter (`none` when the source leaves it unwritten) and the map info.
The walk itself returns `none` when the source hits `BUG()`. -/
abbrev WalkOut := Int × Option Nat × MapInfo

/-- `trans_coarse_entry` from the source (ARMv6 build, legacy L2 decoder). -/
def trans_coarse_entry (xp : Bool) (invisible gva desc domain_type uaccess : Nat)
    (mi : MapInfo) : Option WalkOut :=
  if desc &&& L2_TYPE_MASK = L2_TYPE_FAULT then
    some ((FSR_TRANS_PAGE : Int), some invisible, mi)
  else if desc &&& L2_TYPE_MASK = L2_TYPE_LARGE then
    -- KVMARM_NOT_IMPLEMENTED() is a BUG(): the walk halts
    none
  else if desc &&& L2_TYPE_MASK = L2_TYPE_SMALL then
    let ap8 := (desc >>> 4) &&& 0xff
    if xp then some (EINVAL_ERR, none, mi)
    else
      let mi := { mi with ap := ap8 }
      -- ARMv6 build: different subpage permissions are rejected
      if ap8 &&& 0x3 ≠ (ap8 >>> 2) &&& 0x3 ∨
         ap8 &&& 0x3 ≠ (ap8 >>> 4) &&& 0x3 ∨
         ap8 &&& 0x3 ≠ (ap8 >>> 6) &&& 0x3 then
        some (EINVAL_ERR, none, mi)
      else
        let mi := { mi with cache_bits := desc &&& 0xc }
        let subpage := (gva >>> 10) &&& 0x3
        let ret : Int :=
          if domain_type = DOMAIN_CLIENT ∧
              kvm_decode_ap ((desc >>> (4 + subpage * 2)) &&& 0x3) uaccess = KVM_AP_NONE
          then (FSR_PERM_PAGE : Int) else 0
        let page_base := desc &&& L2_SMALL_BASE_MASK
        let page_index := gva &&& VA_SMALL_INDEX_MASK
        some (ret, some ((page_base ||| page_index) >>> PAGE_SHIFT), mi)
  else
    -- L2_TYPE_EXT_SMALL (ARMv6 build)
    let ap := (desc >>> 4) &&& 0x3
    let mi := { mi with ap := ap ||| (ap <<< 2) ||| (ap <<< 4) ||| (ap <<< 6),
                        cache_bits := (desc &&& 0xc) ||| ((desc >>> 2) &&& 0x70) }
    let ret : Int :=
      if domain_type = DOMAIN_CLIENT ∧ kvm_decode_ap ap uaccess = KVM_AP_NONE
      then (FSR_PERM_PAGE : Int) else 0
    let page_base := desc &&& L2_EXT_SMALL_BASE_MASK
    let page_index := gva &&& VA_EXT_SMALL_INDEX_MASK
    some (ret, some ((page_base ||| page_index) >>> PAGE_SHIFT), mi)

/-- `trans_coarse_entry_xp` from the source (extended-paging L2 decoder). -/
def trans_coarse_entry_xp (invisible gva desc domain_type uaccess : Nat)
    (mi : MapInfo) : Option WalkOut :=
  if desc &&& L2_TYPE_MASK = L2_TYPE_FAULT then
    some ((FSR_TRANS_PAGE : Int), some invisible, mi)
  else if desc &&& L2_TYPE_MASK = L2_TYPE_LARGE then
    -- KVMARM_NOT_IMPLEMENTED() is a BUG(): the walk halts
    none
  else
    -- L2_XP_TYPE_EXT_SMALL with the XN bit clear (2) or set (3)
    let mi := { mi with ap := (desc >>> 4) &&& 0x3,
                        apx := (desc >>> 9) &&& 0x1,
                        xn := desc &&& 0x1,
                        cache_bits := (desc &&& 0xc) ||| ((desc >>> 2) &&& 0x70) }
    let ret : Int :=
      if domain_type = DOMAIN_CLIENT ∧ kvm_decode_ap mi.ap uaccess = KVM_AP_NONE
      then (FSR_PERM_PAGE : Int) else 0
    let page_base := desc &&& L2_EXT_SMALL_BASE_MASK
    let page_index := gva &&& VA_EXT_SMALL_INDEX_MASK
    some (ret, some ((page_base ||| page_index) >>> PAGE_SHIFT), mi)

/-- `gva_to_gfn` from the source (ARMv6 build): guest virtual to guest frame
number, returning the fault code (`>= 0`) or negative error of the walk, the
`gfn` out-parameter, and the map info; `none` models `BUG()`. -/
def gva_to_gfn (c : WalkCtx) (gva uaccess : Nat) (mi0 : MapInfo) : Option WalkOut :=
  if c.mmu_enabled = false then
    -- GVA == GPA when the guest MMU is disabled
    some (0, some (gva >>> PAGE_SHIFT),
      { mi0 with domain_number := 0, ap := 0xff, apx := 0, xn := 0, cache_bits := 0x0c })
  else
    let l1_base := c.guest_ttbr
    let l1_index := (gva &&& VA_L1_IDX_MASK) >>> VA_L1_IDX_SHIFT
    match c.gmem (l1_base ||| l1_index) with
    | none => some (EFAULT_ERR, none, mi0)
    | some l1_entry =>
      if l1_entry &&& L1_TYPE_MASK = L1_TYPE_FAULT then
        some ((FSR_TRANS_SEC : Int), some c.invisible_gfn, mi0)
      else if l1_entry &&& L1_TYPE_MASK = L1_TYPE_COARSE then
        let da := l1_domain_access c.dacr l1_entry
        let mi := { mi0 with domain_number := da.2 }
        let ret : Int := if da.1 = DOMAIN_NOACCESS then (FSR_DOMAIN_PAG : Int) else 0
        let l2_base := l1_entry &&& L1_COARSE_MASK
        let l2_index := (gva &&& VA_L2_IDX_MASK) >>> VA_L2_IDX_SHIFT
        match c.gmem (l2_base ||| l2_index) with
        | none => some (EFAULT_ERR, none, mi)
        | some l2_entry =>
          let step :=
            if c.mmu_xp then
              trans_coarse_entry_xp c.invisible_gfn gva l2_entry da.1 uaccess mi
            else
              trans_coarse_entry c.mmu_xp c.invisible_gfn gva l2_entry da.1 uaccess mi
          match step with
          | none => none
          | some (err, gfn, mi) =>
            if err < 0 then some (err, gfn, mi)
            else if ret = 0 ∧ err > 0 then
              -- maybe AP denied on the 2nd level
              some (err, gfn, mi)
            else
              some (ret, gfn, mi)
      else if l1_entry &&& L1_TYPE_MASK = L1_TYPE_SECTION then
        let ap := (l1_entry &&& L1_SECTION_AP_MASK) >>> L1_SECTION_AP_SHIFT
        let mi := { mi0 with ap := ap ||| (ap <<< 2) ||| (ap <<< 4) ||| (ap <<< 6) }
        let mi :=
          if c.mmu_xp then
            { mi with apx := (l1_entry >>> 14) &&& 1, xn := (l1_entry >>> 4) &&& 1 }
          else mi
        let mi := { mi with cache_bits := (l1_entry &&& 0xc) ||| ((l1_entry >>> 6) &&& 0x70) }
        let da := l1_domain_access c.dacr l1_entry
        let mi := { mi with domain_number := da.2 }
        let ret : Int :=
          if da.1 = DOMAIN_NOACCESS then (FSR_DOMAIN_SEC : Int)
          else if da.1 = DOMAIN_CLIENT ∧ kvm_decode_ap ap uaccess = KVM_AP_NONE then
            (FSR_PERM_SEC : Int)
          else 0
        if c.mmu_xp ∧ is_supersection l1_entry then
          if (l1_entry >>> L1_SUP_BASE_LOW_SHIFT) &&& 0xf ≠ 0 ∨
             (l1_entry >>> L1_SUP_BASE_HIGH_SHIFT) &&& 0xf ≠ 0 then
            some (EINVAL_ERR, none, mi)
          else
            some (ret,
              some (((l1_entry &&& L1_SUP_BASE_MASK) ||| (gva &&& SUP_BASE_INDEX_MASK)) >>> PAGE_SHIFT),
              mi)
        else
          some (ret,
            some (((l1_entry &&& SECTION_BASE_MASK) ||| (gva &&& SECTION_BASE_INDEX_MASK)) >>> PAGE_SHIFT),
            mi)
      else
        -- default: BUG()
        none

/-! ## The shadow table manager

State model: host memory is an arena of 4 KiB frames addressed by frame
number, each holding 1024 32-bit words and the `page_private` live sub-table
count; `__get_free_pages(order 0)` hands out fresh frame numbers from a
monotone counter (the model allocator never fails and never reuses a freed
frame number).  Shadow L1 roots live on the VCPU list as pairs of a root id
and the 4096-entry table, modelled as a function from L1 index to the entry
word.  `kvm_release_pfn_dirty` / `kvm_release_pfn_clean` are modelled as an
append-only log of (pfn, dirty) release events. -/

/-- One 4 KiB host page frame: 1024 32-bit words plus `page_private`. -/
structure Frame where
  words : Nat → Nat
  priv : Nat

/-- The mutable state of the shadow table manager (the VCPU fields the
source reads and writes, plus the modelled host-memory arena).
`shared_page_base` models the link-time constant SHARED_PAGE_BASE and
`task_size` TASK_SIZE (neither under src/); `guest_vectors_pfn` is
`page_to_pfn(virt_to_page(vcpu->arch.guest_vectors))`; `cur_root` is the id
of `vcpu->arch.shadow_pgtable`. -/
structure MState where
  frames : Nat → Frame
  nextFrame : Nat
  freed : Nat → Bool
  roots : List (Nat × (Nat → Nat))
  nextRoot : Nat
  l2_unused : Option (Nat × Nat)
  dacr : Nat
  mmu_xp : Bool
  host_vectors_high : Bool
  shared_page_base : Nat
  task_size : Nat
  guest_vectors_pfn : Nat
  cur_root : Nat
  released : List (Nat × Bool)

/-- Write one 32-bit word of a frame. -/
def writeWord (s : MState) (f w v : Nat) : MState :=
  let fr := s.frames f
  let fr2 : Frame := { words := Function.update fr.words w v, priv := fr.priv }
  { s with frames := Function.update s.frames f fr2 }

/-- `pfn_valid`: the frame number is backed by host memory already handed
out by the model allocator. -/
def pfn_valid (s : MState) (pfn : Nat) : Bool := pfn < s.nextFrame

/-- The host exception-vector base currently mapped
(`VCPU_HOST_EXCP_BASE` / `kvm_host_vector_base`). -/
def host_excp_base (s : MState) : Nat :=
  if s.host_vectors_high then EXCEPTION_VECTOR_HIGH else EXCEPTION_VECTOR_LOW

/-- Carve the 1 KiB sub-table `sl` out of frame `f`: advance
`l2_unused_pt` (wrapping to NULL at the page boundary) and increment the
frame's `page_private`, as the tail of `alloc_l2_shadow` does. -/
def alloc_carve (s : MState) (f sl : Nat) : (Nat × Nat) × MState :=
  let fr := s.frames f
  let fr2 : Frame := { words := fr.words, priv := fr.priv + 1 }
  ((f, sl),
   { s with l2_unused := if sl + 1 = 4 then none else some (f, sl + 1),
            frames := Function.update s.frames f fr2 })

/-- `alloc_l2_shadow` from the source: take the next free 1 KiB sub-table,
allocating (and zeroing, with `page_private = 0`) a fresh host frame when
`l2_unused_pt` is NULL.  The model allocator never fails, so the -ENOMEM
branch of the source does not appear. -/
def alloc_l2_shadow (s : MState) : (Nat × Nat) × MState :=
  match s.l2_unused with
  | none =>
    let f := s.nextFrame
    let blank : Frame := { words := fun _ => 0, priv := 0 }
    let s2 := { s with frames := Function.update s.frames f blank, nextFrame := f + 1 }
    alloc_carve s2 f 0
  | some (f, sl) => alloc_carve s f sl

/-- `VCPU_DOMAIN_VAL(vcpu, domain)`: the 2-bit class of `domain` in the
guest DACR.  Modelled from the spec (the macro is in a header missing from
src/): the per-domain class lookup of section 4.2. -/
def VCPU_DOMAIN_VAL (dacr domain : Nat) : Nat := (dacr >>> (2 * domain)) &&& 0x3

/-- `dom_to_ap` from the source: the access permissions equivalent to the
passed domain; returns (ap, apx) since `apx` is an out-parameter the source
writes in the first two cases and leaves alone for Client. -/
def dom_to_ap (dacr domain ap apx : Nat) : Nat × Nat :=
  if VCPU_DOMAIN_VAL dacr domain = DOMAIN_NOACCESS then (0, 0)
  else if VCPU_DOMAIN_VAL dacr domain = DOMAIN_MANAGER then (0xff, 0)
  else (ap, apx)

/-- `get_l2_base` from the source: decode the coarse L1 entry into the host
frame number and sub-table slot; `none` models the -EFAULT return on an
invalid pfn. -/
def get_l2_base (s : MState) (l1_entry : Nat) : Option (Nat × Nat) :=
  if pfn_valid s (l1_entry >>> PAGE_SHIFT) then
    some (l1_entry >>> PAGE_SHIFT, (l1_entry &&& 0xc00) >>> 10)
  else none

/-- Replace the table of root `rid` on the VCPU list. -/
def updateRoot (s : MState) (rid : Nat) (pgd : Nat → Nat) : MState :=
  { s with roots := s.roots.map fun p => if p.1 = rid then (rid, pgd) else p }

/-- The shadow L2 descriptor word the ARMv6 branch of `__map_gva_to_pfn`
composes and stores. -/
def l2_entry_val (pfn ap apx xn nG : Nat) : Nat :=
  clearBits ((pfn <<< PAGE_SHIFT) ||| L2_XP_TYPE_EXT_SMALL ||| (xn &&& 0x1) ||| 0xc) 0xff0
    ||| ((ap &&& 0x3) <<< 4) ||| ((apx &&& 0x1) <<< 9) ||| (nG <<< 11)

/-- `__map_gva_to_pfn` from the source (ARMv6 build).  Ops addressed to a
root id not on the VCPU list answer -EINVAL without touching anything (the C
interface takes a raw `pgd` pointer, which callers always pass live). -/
def __map_gva_to_pfn (s : MState) (rid gva pfn domain ap apx xn : Nat) :
    Option (Int × MState) :=
  let l1_index := gva >>> 20
  let nG : Nat :=
    if gva &&& 0xfffff000 = s.shared_page_base ∨ gva > s.task_size then 0 else 1
  -- the two special guest virtual regions force the special domain
  let daa :=
    if domain = KVM_SPECIAL_DOMAIN then (domain, ap, apx)
    else if l1_index = s.shared_page_base >>> 20 then
      let p := dom_to_ap s.dacr domain ap apx
      (KVM_SPECIAL_DOMAIN, p.1, p.2)
    else if l1_index = host_excp_base s >>> 20 then
      let p := dom_to_ap s.dacr domain ap apx
      (KVM_SPECIAL_DOMAIN, p.1, p.2)
    else (domain, ap, apx)
  let domain := daa.1
  let ap := daa.2.1
  let apx := daa.2.2
  match s.roots.lookup rid with
  | none => some (EINVAL_ERR, s)
  | some pgd =>
    let l1_pte := pgd l1_index
    if l1_pte &&& L1_TYPE_MASK = L1_TYPE_FAULT then
      let a := alloc_l2_shadow s
      let f := a.1.1
      let sl := a.1.2
      let s := a.2
      -- *l1_pte = page_to_phys | low bits of l2_base, masked to the coarse
      -- base, typed coarse, with the domain field
      let new_l1 := clearBits ((f <<< PAGE_SHIFT) ||| (sl <<< 10)) 0x3ff
          ||| L1_TYPE_COARSE ||| ((domain &&& 0xf) <<< L1_DOMAIN_SHIFT)
      let s := updateRoot s rid (Function.update pgd l1_index new_l1)
      some (0, writeWord s f (sl * 256 + ((gva >>> 12) &&& 0xff))
        (l2_entry_val pfn ap apx xn nG))
    else if l1_pte &&& L1_TYPE_MASK = L1_TYPE_COARSE then
      -- update the domain of the L1 mapping
      let l1b := clearBits l1_pte L1_DOMAIN_MASK ||| ((domain &&& 0xf) <<< L1_DOMAIN_SHIFT)
      let s := updateRoot s rid (Function.update pgd l1_index l1b)
      match get_l2_base s l1b with
      | none => some (EFAULT_ERR, s)
      | some (f, sl) =>
        some (0, writeWord s f (sl * 256 + ((gva >>> 12) &&& 0xff))
          (l2_entry_val pfn ap apx xn nG))
    else
      -- only coarse mappings are supported: error return, not a halt
      some (EFAULT_ERR, s)

/-- `map_gva_to_pfn` from the source: permission-consistency validation,
AP encoding, then `__map_gva_to_pfn`.  Arguments are masked to their C
parameter widths (`gva_t` is u32). -/
def map_gva_to_pfn (s : MState) (rid gva pfn domain priv_ap user_ap exec : Nat) :
    Option (Int × MState) :=
  let gva := gva &&& 0xffffffff
  let go := fun (_ : Unit) =>
    let c := calc_aps priv_ap user_ap
    let ap := c.1 ||| (c.1 <<< 2) ||| (c.1 <<< 4) ||| (c.1 <<< 6)
    __map_gva_to_pfn s rid gva pfn domain ap c.2 exec
  if priv_ap = KVM_AP_NONE ∧ user_ap ≠ KVM_AP_NONE then some (EINVAL_ERR, s)
  else if s.mmu_xp then
    if priv_ap = KVM_AP_RDONLY ∧ user_ap = KVM_AP_RDWRITE then some (EINVAL_ERR, s)
    else go ()
  else if priv_ap = KVM_AP_RDONLY then some (EINVAL_ERR, s)
  else go ()

/-- `mapping_is_guest_writable` from the source.  The switch scrutinee is
the full shifted word `dacr >> (domain*2)` exactly as in the C (which does
not mask it to the 2-bit field); `none` models `BUG_ON(domain > 15)`. -/
def mapping_is_guest_writable (dacr domain pte : Nat) : Option Bool :=
  let d := (dacr &&& 0x3fffffff) ||| domain_val KVM_SPECIAL_DOMAIN DOMAIN_CLIENT
  if domain > 15 then none
  else if d >>> (domain * 2) = DOMAIN_MANAGER then some true
  else if d >>> (domain * 2) = DOMAIN_CLIENT then
    some (decide (kvm_decode_ap ((pte >>> 4) &&& 0x3) 0 = KVM_AP_RDWRITE))
  else some false

/-- `release_l2_shadow_entry` from the source (ARMv6 build): the release
events for one shadow L2 entry; `none` models the `BUG()` on a large-page
descriptor (and the `BUG_ON` inside `mapping_is_guest_writable`). -/
def release_l2_shadow_entry (dacr domain pte : Nat) : Option (List (Nat × Bool)) :=
  if pte &&& L2_TYPE_MASK = L2_TYPE_FAULT then some []
  else if pte &&& L2_TYPE_MASK = L2_XP_TYPE_EXT_SMALL ∨
          pte &&& L2_TYPE_MASK = (L2_XP_TYPE_EXT_SMALL ||| 0x1) then
    match mapping_is_guest_writable dacr domain pte with
    | none => none
    | some w => some [((pte &&& L2_SMALL_BASE_MASK) >>> PAGE_SHIFT, w)]
  else
    -- large page in shadow page table: BUG()
    none

/-- The release loop of `free_l2_shadow` over the 256 entries of one 1 KiB
sub-table, accumulating the release events; `none` when any entry halts. -/
def release_subtable (dacr : Nat) (wordsf : Nat → Nat) (sl domain : Nat) :
    Option (List (Nat × Bool)) :=
  (List.range L2_TABLE_ENTRIES).foldl
    (fun acc i =>
      match acc with
      | none => none
      | some l =>
        match release_l2_shadow_entry dacr domain (wordsf (sl * 256 + i)) with
        | none => none
        | some e => some (l ++ e))
    (some [])

/-- `free_l2_shadow` from the source: release every entry of the 1 KiB
sub-table the coarse L1 entry points to, decrement the host frame's
`page_private` (halting on `BUG_ON(page_private == 0)`), and free the frame
when the count reaches zero. -/
def free_l2_shadow (s : MState) (l1_pte _gva_base : Nat) : Option MState :=
  match release_subtable s.dacr (s.frames (l1_pte >>> PAGE_SHIFT)).words
      ((l1_pte &&& 0xc00) >>> 10) ((l1_pte &&& L1_DOMAIN_MASK) >>> L1_DOMAIN_SHIFT) with
  | none => none
  | some evs =>
    if (s.frames (l1_pte >>> PAGE_SHIFT)).priv = 0 then none
    else if (s.frames (l1_pte >>> PAGE_SHIFT)).priv - 1 = 0 then
      some { s with released := s.released ++ evs,
                    frames := Function.update s.frames (l1_pte >>> PAGE_SHIFT)
                      { words := (s.frames (l1_pte >>> PAGE_SHIFT)).words,
                        priv := (s.frames (l1_pte >>> PAGE_SHIFT)).priv - 1 },
                    freed := Function.update s.freed (l1_pte >>> PAGE_SHIFT) true }
    else
      some { s with released := s.released ++ evs,
                    frames := Function.update s.frames (l1_pte >>> PAGE_SHIFT)
                      { words := (s.frames (l1_pte >>> PAGE_SHIFT)).words,
                        priv := (s.frames (l1_pte >>> PAGE_SHIFT)).priv - 1 } }

/-- One iteration of the `__free_l1_shadow_children` loop at L1 index `i`. -/
def free_children_step (s : MState) (rid i : Nat) : Option MState :=
  match s.roots.lookup rid with
  | none => some s
  | some pgd =>
    let l1_pte := pgd i
    if l1_pte &&& L1_TYPE_MASK = L1_TYPE_FAULT then some s
    else if l1_pte &&& L1_TYPE_MASK = L1_TYPE_COARSE then
      match free_l2_shadow s l1_pte (i <<< 20) with
      | none => none
      | some s2 => some (updateRoot s2 rid (Function.update pgd i 0))
    else
      -- a shadow L1 entry that is neither fault nor coarse: BUG()
      none

/-- `__free_l1_shadow_children` from the source: iterate every L1 entry and
free the child tables. -/
def __free_l1_shadow_children (s : MState) (rid : Nat) : Option MState :=
  (List.range L1_TABLE_ENTRIES).foldl
    (fun acc i =>
      match acc with
      | none => none
      | some s2 => free_children_step s2 rid i)
    (some s)

/-- `free_l1_shadow_children` from the source: the NULL-pgd guard (a root id
not on the list stands in for a NULL pointer) and the reset of
`l2_unused_pt`. -/
def free_l1_shadow_children (s : MState) (rid : Nat) : Option MState :=
  if (s.roots.lookup rid).isNone then some s
  else
    match __free_l1_shadow_children s rid with
    | none => none
    | some s2 => some { s2 with l2_unused := none }

/-- `kvm_free_l1_shadow` from the source: free the children, the root table
pages, and remove the root from the VCPU list. -/
def kvm_free_l1_shadow (s : MState) (rid : Nat) : Option MState :=
  match free_l1_shadow_children s rid with
  | none => none
  | some s2 => some { s2 with roots := s2.roots.filter fun p => p.1 ≠ rid }

/-- `kvm_alloc_l1_shadow` from the source: a fresh zeroed 16 KiB root on the
VCPU list (the ASID tag, physical address and `guest_ttbr` fields play no
role in the verified claims and are not carried). -/
def kvm_alloc_l1_shadow (s : MState) : MState :=
  { s with roots := s.roots ++ [(s.nextRoot, fun _ => 0)],
           nextRoot := s.nextRoot + 1 }

/-- `unmap_gva` from the source: clear a single shadow L2 entry; succeeds
silently when the L1 entry is already a fault. -/
def unmap_gva (s : MState) (rid gva : Nat) : Option (Int × MState) :=
  let gva := gva &&& 0xffffffff
  match s.roots.lookup rid with
  | none => some (EINVAL_ERR, s)
  | some pgd =>
    let l1_pte := pgd (gva >>> 20)
    if l1_pte &&& L1_TYPE_MASK = L1_TYPE_FAULT then some (0, s)
    else if l1_pte &&& L1_TYPE_MASK = L1_TYPE_COARSE then
      match get_l2_base s l1_pte with
      | none => some (EFAULT_ERR, s)
      | some (f, sl) => some (0, writeWord s f (sl * 256 + ((gva >>> 12) &&& 0xff)) 0)
    else some (EFAULT_ERR, s)

/-- `unmap_gva_section` from the source: release the whole sub-table of the
1 MiB region and clear the L1 entry to fault. -/
def unmap_gva_section (s : MState) (rid gva : Nat) : Option (Int × MState) :=
  let gva := gva &&& 0xffffffff
  match s.roots.lookup rid with
  | none => some (EINVAL_ERR, s)
  | some pgd =>
    let l1_pte := pgd (gva >>> 20)
    if l1_pte &&& L1_TYPE_MASK = L1_TYPE_FAULT then some (0, s)
    else if l1_pte &&& L1_TYPE_MASK = L1_TYPE_COARSE then
      match free_l2_shadow s l1_pte gva with
      | none => none
      | some s2 => some (0, updateRoot s2 rid (Function.update pgd (gva >>> 20) 0))
    else some (EFAULT_ERR, s)

-- Modelled from the spec: KVM_MEM_EXEC is declared in a header missing from
-- src/; it is the executable setting of the execute-never argument of
-- `install` (xn = 1 means execute never), so it is 0.
def KVM_MEM_EXEC : Nat := 0

/-- `kvm_switch_host_vectors` from the source: a no-op when the requested
base is already active, otherwise unmap the old base and map the vector page
at the new one. -/
def kvm_switch_host_vectors (s : MState) (high : Bool) : Option (Int × MState) :=
  if high = s.host_vectors_high then some (0, s)
  else if high then
    match unmap_gva_section s s.cur_root EXCEPTION_VECTOR_LOW with
    | none => none
    | some (ret, s2) =>
      if ret ≠ 0 then some (ret, s2)
      else
        let s3 := { s2 with host_vectors_high := true }
        map_gva_to_pfn s3 s3.cur_root EXCEPTION_VECTOR_HIGH s3.guest_vectors_pfn
          KVM_SPECIAL_DOMAIN KVM_AP_RDWRITE KVM_AP_NONE KVM_MEM_EXEC
  else
    match unmap_gva s s.cur_root EXCEPTION_VECTOR_HIGH with
    | none => none
    | some (ret, s2) =>
      if ret ≠ 0 then some (ret, s2)
      else
        let s3 := { s2 with host_vectors_high := false }
        map_gva_to_pfn s3 s3.cur_root EXCEPTION_VECTOR_LOW s3.guest_vectors_pfn
          KVM_SPECIAL_DOMAIN KVM_AP_RDWRITE KVM_AP_NONE KVM_MEM_EXEC

/-! ## Synthetic fault injection -/

-- Modelled from the spec: the EXCEPTION_PREFETCH / EXCEPTION_DATA pending
-- flags are declared in a header missing from src/; two distinct pending
-- bits of `vcpu->arch.exception_pending`.
def EXCEPTION_PREFETCH : Nat := 1
def EXCEPTION_DATA : Nat := 2

/-- The guest fault registers `kvm_generate_mmu_fault` writes. -/
structure FaultRegs where
  guest_exception : Nat
  c5_IFSR : Nat := 0
  c5_DFSR : Nat := 0
  c6_FAR : Nat := 0
  exception_pending : Nat := 0
deriving Repr, DecidableEq

/-- `kvm_generate_mmu_fault` from the source, with the statement sequence of
the data-abort branch reproduced literally: DFSR is first composed from the
masked fault code and the domain, then assigned `source` wholesale. -/
def kvm_generate_mmu_fault (r : FaultRegs) (fault_addr source domain : Nat) : FaultRegs :=
  if r.guest_exception = ARM_EXCEPTION_PREF_ABORT then
    let ifsr0 := 0
    let ifsr1 := ifsr0 ||| (source &&& FSR_TYPE_MASK)
    let ifsr2 := ifsr1 ||| ((domain &&& 0xf) <<< 4)
    { r with c5_IFSR := ifsr2,
             exception_pending := r.exception_pending ||| EXCEPTION_PREFETCH }
  else
    let dfsr0 := 0
    let dfsr1 := dfsr0 ||| (source &&& FSR_TYPE_MASK)
    let _dfsr2 := dfsr1 ||| ((domain &&& 0xf) <<< 4)
    let dfsr3 := source
    { r with c6_FAR := fault_addr,
             c5_DFSR := dfsr3,
             exception_pending := r.exception_pending ||| EXCEPTION_DATA }

/-! ## Concrete instances used by witness and counterexample theorems -/

/-- A concrete shadow-manager state with no roots and an empty arena:
DACR marks domain 0 Manager (0x3), extended paging on, high vectors active,
with representative values for the link-time constants. -/
def exState : MState :=
  { frames := fun _ => { words := fun _ => 0, priv := 0 }, nextFrame := 0,
    freed := fun _ => false, roots := [], nextRoot := 0, l2_unused := none,
    dacr := 0x3, mmu_xp := true, host_vectors_high := true,
    shared_page_base := 0xf1600000, task_size := 0xbf000000,
    guest_vectors_pfn := 0x99, cur_root := 0, released := [] }

/-- `exState` with one freshly allocated root (id 0). -/
def exStateR : MState := kvm_alloc_l1_shadow exState

/-- `exState` with one root whose L1 entry at index 1 is section-typed
(value 2) — a shadow table state the manager treats as corrupt. -/
def exStateBad : MState :=
  { exState with roots := [(0, fun i => if i = 1 then 2 else 0)], nextRoot := 1 }

/-- A concrete walker context: guest tables at 0x4000; the L1 entry for the
1 MiB region of 0x00100000 is Coarse (L2 base 0x8000, domain 3) and the L2
entry there is a translation fault; DACR leaves domain 3 No-Access. -/
def exCtx : WalkCtx :=
  { mmu_enabled := true, mmu_xp := false, dacr := 0, guest_ttbr := 0x4000,
    gmem := fun a =>
      if a = 0x4004 then some 0x8061
      else if a = 0x8000 then some 0
      else none,
    invisible_gfn := 0xffffff }

/-- A concrete walker context for the section path: the L1 entry for the
region of 0x00100000 is a Section (base 0x7ff00000, domain 3, AP 0); DACR
marks domain 3 Client. -/
def exCtxSec : WalkCtx :=
  { mmu_enabled := true, mmu_xp := false, dacr := 0x40, guest_ttbr := 0x4000,
    gmem := fun a => if a = 0x4004 then some (0x7ff00000 ||| (3 <<< 5) ||| 0x2) else none,
    invisible_gfn := 0xffffff }

/-- The shadow mapping of `gva` is absent: its L1 entry is a Fault, or the
L1 entry is Coarse with a valid sub-table whose L2 entry for `gva` is 0. -/
def mapping_absent (s : MState) (pgd : Nat → Nat) (gva : Nat) : Prop :=
  pgd (gva >>> 20) &&& L1_TYPE_MASK = L1_TYPE_FAULT ∨
  (pgd (gva >>> 20) &&& L1_TYPE_MASK = L1_TYPE_COARSE ∧
   ∃ f sl, get_l2_base s (pgd (gva >>> 20)) = some (f, sl) ∧
     (s.frames f).words (sl * 256 + ((gva >>> 12) &&& 0xff)) = 0)

/-- The root still has an entry of L1 type `ty` at index `i`. -/
def KeepsType (rid i ty : Nat) (s : MState) : Prop :=
  ∃ pgd, s.roots.lookup rid = some pgd ∧ pgd i &&& L1_TYPE_MASK = ty

/-! ## The operations of the sub-table count invariant

The operation alphabet of the claim: installing, unmapping one page,
unmapping a section, freeing a root, plus allocating a fresh root, starting
from a state with no roots and an empty arena. -/

inductive MOp where
  | allocRoot : MOp
  | install (rid gva pfn domain priv_ap user_ap exec : Nat) : MOp
  | unmapPage (rid gva : Nat) : MOp
  | unmapSection (rid gva : Nat) : MOp
  | freeRoot (rid : Nat) : MOp

/-- One operation; `none` when the source would halt (`BUG()`). -/
def stepOp (s : MState) : MOp → Option MState
  | .allocRoot => some (kvm_alloc_l1_shadow s)
  | .install rid gva pfn domain priv_ap user_ap exec =>
      (map_gva_to_pfn s rid gva pfn domain priv_ap user_ap exec).map (·.2)
  | .unmapPage rid gva => (unmap_gva s rid gva).map (·.2)
  | .unmapSection rid gva => (unmap_gva_section s rid gva).map (·.2)
  | .freeRoot rid => kvm_free_l1_shadow s rid

def runOps (s : MState) : List MOp → Option MState
  | [] => some s
  | op :: ops =>
    match stepOp s op with
    | none => none
    | some s2 => runOps s2 ops

/-- The fresh starting state: no roots, empty arena, NULL bump pointer. -/
def initState (dacr : Nat) (xp hvh : Bool) (spb tsz gvp cr : Nat) : MState :=
  { frames := fun _ => { words := fun _ => 0, priv := 0 }, nextFrame := 0,
    freed := fun _ => false, roots := [], nextRoot := 0, l2_unused := none,
    dacr := dacr, mmu_xp := xp, host_vectors_high := hvh,
    shared_page_base := spb, task_size := tsz, guest_vectors_pfn := gvp,
    cur_root := cr, released := [] }

/-- Does the L1 entry word `e` reference the 1 KiB sub-table `sl` of host
frame `f` (a Coarse entry whose base address decodes to that sub-table)? -/
def coarseRefs (e f sl : Nat) : Bool :=
  (e &&& L1_TYPE_MASK == L1_TYPE_COARSE) && (e >>> PAGE_SHIFT == f) &&
    ((e >>> 10) &&& 0x3 == sl)

/-- Does some L1 entry of the table reference sub-table (f, sl)? -/
def refsFrom (pgd : Nat → Nat) (f sl : Nat) : Bool :=
  (List.range L1_TABLE_ENTRIES).any fun i => coarseRefs (pgd i) f sl

/-- Does some live shadow root reference sub-table (f, sl)? -/
def refsBool (s : MState) (f sl : Nat) : Bool :=
  s.roots.any fun p => refsFrom p.2 f sl

/-- The number of 1 KiB sub-table slots of frame `f` currently referenced by
a Coarse entry of a live shadow root: the frame's live sub-tables. -/
def countRefs (s : MState) (f : Nat) : Nat :=
  (List.range 4).countP fun sl => refsBool s f sl

/-- The number of sub-table slots of frame `f` that hold at least one
non-Fault L2 entry — the quantity the claim literally measures. -/
def countNonFaultSlots (s : MState) (f : Nat) : Nat :=
  (List.range 4).countP fun sl =>
    (List.range L2_TABLE_ENTRIES).any fun i =>
      ((s.frames f).words (sl * 256 + i)) &&& L2_TYPE_MASK != L2_TYPE_FAULT

/-- The inductive invariant behind the sub-table count theorem: root ids are
distinct and below the allocation counter; every L1 entry of every root
(below index 4096) is either 0 (Fault) or a canonical coarse entry
`4096*f + 1024*sl + 32*d + 1` with the frame allocated, `sl < 4`, `d < 16`;
distinct L1 entries never reference the same (frame, slot); every frame's
`page_private` equals its number of referenced slots; and the bump pointer,
when set, points at an allocated frame at a slot from which no sub-table of
that frame is referenced. -/
structure WF (s : MState) : Prop where
  ids_nodup : (s.roots.map Prod.fst).Nodup
  ids_lt : ∀ p ∈ s.roots, p.1 < s.nextRoot
  canon : ∀ p ∈ s.roots, ∀ i, i < L1_TABLE_ENTRIES →
    p.2 i = 0 ∨ ∃ f sl d, f < s.nextFrame ∧ sl < 4 ∧ d < 16 ∧
      p.2 i = 4096 * f + 1024 * sl + 32 * d + 1
  inj : ∀ p ∈ s.roots, ∀ q ∈ s.roots, ∀ i, i < L1_TABLE_ENTRIES →
    ∀ j, j < L1_TABLE_ENTRIES →
    p.2 i &&& L1_TYPE_MASK = L1_TYPE_COARSE →
    q.2 j &&& L1_TYPE_MASK = L1_TYPE_COARSE →
    p.2 i >>> PAGE_SHIFT = q.2 j >>> PAGE_SHIFT →
    (p.2 i >>> 10) &&& 0x3 = (q.2 j >>> 10) &&& 0x3 →
    p.1 = q.1 ∧ i = j
  count : ∀ f, (s.frames f).priv = countRefs s f
  bump : ∀ f sl, s.l2_unused = some (f, sl) →
    sl < 4 ∧ f < s.nextFrame ∧
    ∀ p ∈ s.roots, ∀ i, i < L1_TABLE_ENTRIES →
      p.2 i &&& L1_TYPE_MASK = L1_TYPE_COARSE →
      ¬(p.2 i >>> PAGE_SHIFT = f ∧ sl ≤ (p.2 i >>> 10) &&& 0x3)

end ArmMmu

namespace ArmMmu

/-! # Theorems for the claims -/

/-! ## General helper lemmas -/

theorem land_mask32_of_lt {x : Nat} (h : x < 2 ^ 32) : x &&& 0xffffffff = x := by
  have h2 : (0xffffffff : Nat) = 2 ^ 32 - 1 := by norm_num
  rw [h2]
  exact Nat.and_pow_two_sub_one_of_lt_two_pow h

theorem writeWord_eq_self (s : MState) (f w v : Nat) (h : (s.frames f).words w = v) :
    writeWord s f w v = s := by
  unfold writeWord
  have h2 : Function.update (s.frames f).words w v = (s.frames f).words := by
    rw [← h]; exact Function.update_eq_self _ _
  simp only [h2]
  have h3 : ({ words := (s.frames f).words, priv := (s.frames f).priv } : Frame) = s.frames f := rfl
  rw [h3, Function.update_eq_self]

theorem testBit_clearBits (x m i : Nat) :
    (clearBits x m).testBit i = (x.testBit i && !(m.testBit i)) := by
  simp only [clearBits, Nat.testBit_xor, Nat.testBit_and]
  cases x.testBit i <;> cases m.testBit i <;> rfl

theorem clearBits_and_self (x m : Nat) : clearBits x m &&& m = 0 := by
  simp [clearBits, Nat.and_xor_distrib_right, Nat.and_assoc]

theorem clearBits_and_subset (x : Nat) {m c : Nat} (h : c &&& m = c) :
    clearBits x m &&& c = 0 := by
  conv_lhs => rw [← h]
  rw [Nat.and_comm c m, ← Nat.and_assoc, clearBits_and_self, Nat.zero_and]

theorem and_shl (x m n : Nat) : x &&& (m <<< n) = ((x >>> n) &&& m) <<< n := by
  apply Nat.eq_of_testBit_eq
  intro i
  simp only [Nat.testBit_and, Nat.testBit_shiftLeft, Nat.testBit_shiftRight]
  by_cases h : n ≤ i
  · simp [h, Nat.add_sub_cancel' h]
  · simp [h]

theorem shl_shr_cancel (x n : Nat) : x <<< n >>> n = x := by
  rw [Nat.shiftLeft_eq, Nat.shiftRight_eq_div_pow]
  exact Nat.mul_div_cancel x (Nat.pos_pow_of_pos n (by norm_num))

theorem or_eq_add_pow {k : Nat} (i : Nat) (a b : Nat) (hk : k = 2 ^ i) (h : b < k) :
    (k * a) ||| b = k * a + b := by
  subst hk
  exact (Nat.mul_add_lt_is_or h a).symm

theorem and_mod_pow {k : Nat} (i x : Nat) (hk : k = 2 ^ i) : x &&& (k - 1) = x % k := by
  subst hk
  exact Nat.and_pow_two_sub_one_eq_mod x i

theorem and_mul_pow_eq_zero {k : Nat} (i : Nat) (a b : Nat) (hk : k = 2 ^ i) (h : b < k) :
    (k * a) &&& b = 0 := by
  subst hk
  apply Nat.eq_of_testBit_eq
  intro j
  simp only [Nat.testBit_and, Nat.testBit_mul_pow_two, Nat.zero_testBit]
  by_cases hj : i ≤ j
  · have hb : b.testBit j = false :=
      Nat.testBit_lt_two_pow (lt_of_lt_of_le h (Nat.pow_le_pow_right (by norm_num) hj))
    simp [hb]
  · simp [hj]

theorem lor_xor_cancel {a b : Nat} (h : a &&& b = 0) : (a ||| b) ^^^ b = a := by
  apply Nat.eq_of_testBit_eq
  intro i
  have hb := congrArg (fun x => x.testBit i) h
  simp only [Nat.testBit_and, Nat.zero_testBit] at hb
  simp only [Nat.testBit_xor, Nat.testBit_or]
  cases ha : a.testBit i <;> cases hbb : b.testBit i <;> simp_all

theorem domain_field_or (a d : Nat) (ha : a &&& L1_DOMAIN_MASK = 0) :
    ((a ||| ((d &&& 0xf) <<< L1_DOMAIN_SHIFT)) &&& L1_DOMAIN_MASK) >>> L1_DOMAIN_SHIFT
      = d &&& 0xf := by
  rw [Nat.and_distrib_right, ha, Nat.zero_or]
  rw [L1_DOMAIN_MASK, L1_DOMAIN_SHIFT, and_shl, shl_shr_cancel, shl_shr_cancel]
  rw [Nat.and_assoc]
  norm_num

theorem lookup_map_update (l : List (Nat × (Nat → Nat))) (rid : Nat) (pgd : Nat → Nat)
    (h : (l.lookup rid).isSome) :
    (l.map fun p => if p.1 = rid then (rid, pgd) else p).lookup rid = some pgd := by
  induction l with
  | nil => simp [List.lookup] at h
  | cons p t ih =>
    obtain ⟨k, v⟩ := p
    by_cases hp : k = rid
    · subst hp
      rw [List.map_cons, if_pos rfl]
      simp [List.lookup]
    · have hb : (rid == k) = false := beq_eq_false_iff_ne.mpr (Ne.symm hp)
      rw [List.map_cons, if_neg hp]
      simp only [List.lookup, hb] at h ⊢
      exact ih h

theorem alloc_roots (s : MState) : (alloc_l2_shadow s).2.roots = s.roots := by
  unfold alloc_l2_shadow alloc_carve
  cases s.l2_unused with
  | none => rfl
  | some p => rfl

theorem writeWord_roots (s : MState) (f w v : Nat) : (writeWord s f w v).roots = s.roots := rfl

theorem updateRoot_roots (s : MState) (rid : Nat) (pgd : Nat → Nat) :
    (updateRoot s rid pgd).roots = s.roots.map fun p => if p.1 = rid then (rid, pgd) else p := rfl

/-! ## Canonical coarse-entry arithmetic -/

theorem mk_l1_entry_eq (f sl d : Nat) (hsl : sl < 4) :
    clearBits ((f <<< PAGE_SHIFT) ||| (sl <<< 10)) 0x3ff ||| L1_TYPE_COARSE
      ||| ((d &&& 0xf) <<< L1_DOMAIN_SHIFT)
    = 4096 * f + 1024 * sl + 32 * (d % 16) + 1 := by
  have h1 : (f <<< PAGE_SHIFT) ||| (sl <<< 10) = 4096 * f + 1024 * sl := by
    rw [PAGE_SHIFT, Nat.shiftLeft_eq, Nat.shiftLeft_eq, mul_comm f, mul_comm sl]
    rw [show (2:Nat) ^ 12 = 4096 by norm_num, show (2:Nat) ^ 10 = 1024 by norm_num]
    exact or_eq_add_pow 12 f (1024 * sl) (by norm_num) (by omega)
  rw [h1]
  have h2 : clearBits (4096 * f + 1024 * sl) 0x3ff = 4096 * f + 1024 * sl := by
    unfold clearBits
    rw [show (0x3ff:Nat) = 1024 - 1 by norm_num, and_mod_pow 10 _ (by norm_num)]
    rw [show (4096 * f + 1024 * sl) % 1024 = 0 by omega]
    simp
  rw [h2]
  have h3 : d &&& 0xf = d % 16 := by
    rw [show (0xf:Nat) = 16 - 1 by norm_num]; exact and_mod_pow 4 d (by norm_num)
  rw [h3, L1_DOMAIN_SHIFT, L1_TYPE_COARSE, Nat.shiftLeft_eq,
      show (2:Nat) ^ 5 = 32 by norm_num]
  rw [Nat.or_assoc, Nat.or_comm 1 (d % 16 * 32), mul_comm (d % 16) 32]
  rw [or_eq_add_pow 5 (d % 16) 1 (by norm_num) (by norm_num)]
  rw [show 4096 * f + 1024 * sl = 1024 * (4 * f + sl) by ring]
  rw [or_eq_add_pow 10 (4 * f + sl) (32 * (d % 16) + 1) (by norm_num) (by omega)]
  ring

theorem upd_domain_eq (f sl d d2 : Nat) (hsl : sl < 4) (hd : d < 16) :
    clearBits (4096 * f + 1024 * sl + 32 * d + 1) L1_DOMAIN_MASK |||
      ((d2 &&& 0xf) <<< L1_DOMAIN_SHIFT)
    = 4096 * f + 1024 * sl + 32 * (d2 % 16) + 1 := by
  have hand : (4096 * f + 1024 * sl + 32 * d + 1) &&& L1_DOMAIN_MASK = 32 * d := by
    rw [L1_DOMAIN_MASK, L1_DOMAIN_SHIFT, and_shl]
    rw [Nat.shiftRight_eq_div_pow, show (2:Nat) ^ 5 = 32 by norm_num]
    rw [show (4096 * f + 1024 * sl + 32 * d + 1) / 32 = 128 * f + 32 * sl + d by omega]
    rw [show (0xf:Nat) = 16 - 1 by norm_num, and_mod_pow 4 _ (by norm_num)]
    rw [show (128 * f + 32 * sl + d) % 16 = d by omega]
    rw [Nat.shiftLeft_eq, show (2:Nat) ^ 5 = 32 by norm_num]
    ring
  have hsplit : 4096 * f + 1024 * sl + 32 * d + 1 =
      (4096 * f + 1024 * sl + 1) ||| (32 * d) := by
    rw [show 4096 * f + 1024 * sl + 1 = 1024 * (4 * f + sl) ||| 1 by
      rw [or_eq_add_pow 10 (4 * f + sl) 1 (by norm_num) (by norm_num)]; ring]
    rw [Nat.or_assoc, Nat.or_comm 1 (32 * d),
        or_eq_add_pow 5 d 1 (by norm_num) (by norm_num)]
    rw [or_eq_add_pow 10 (4 * f + sl) (32 * d + 1) (by norm_num) (by omega)]
    ring
  have hdisj : (4096 * f + 1024 * sl + 1) &&& (32 * d) = 0 := by
    rw [show 4096 * f + 1024 * sl + 1 = 1024 * (4 * f + sl) ||| 1 by
      rw [or_eq_add_pow 10 (4 * f + sl) 1 (by norm_num) (by norm_num)]; ring]
    rw [Nat.and_distrib_right]
    rw [and_mul_pow_eq_zero 10 (4 * f + sl) (32 * d) (by norm_num) (by omega)]
    rw [Nat.one_and_eq_mod_two, show 32 * d % 2 = 0 by omega]
    rfl
  unfold clearBits
  rw [hand, hsplit, lor_xor_cancel hdisj]
  have h3 : d2 &&& 0xf = d2 % 16 := by
    rw [show (0xf:Nat) = 16 - 1 by norm_num]; exact and_mod_pow 4 d2 (by norm_num)
  rw [h3, L1_DOMAIN_SHIFT, Nat.shiftLeft_eq, show (2:Nat) ^ 5 = 32 by norm_num]
  rw [show 4096 * f + 1024 * sl + 1 = 1024 * (4 * f + sl) ||| 1 by
    rw [or_eq_add_pow 10 (4 * f + sl) 1 (by norm_num) (by norm_num)]; ring]
  rw [Nat.or_assoc, Nat.or_comm 1 (d2 % 16 * 32), mul_comm (d2 % 16) 32]
  rw [or_eq_add_pow 5 (d2 % 16) 1 (by norm_num) (by norm_num)]
  rw [or_eq_add_pow 10 (4 * f + sl) (32 * (d2 % 16) + 1) (by norm_num) (by omega)]
  ring

theorem canon_type (f sl d : Nat) :
    (4096 * f + 1024 * sl + 32 * d + 1) &&& L1_TYPE_MASK = L1_TYPE_COARSE := by
  rw [L1_TYPE_MASK, L1_TYPE_COARSE, show (0x3:Nat) = 4 - 1 by norm_num,
      and_mod_pow 2 _ (by norm_num)]
  omega

theorem canon_frame (f sl d : Nat) (hsl : sl < 4) (hd : d < 16) :
    (4096 * f + 1024 * sl + 32 * d + 1) >>> PAGE_SHIFT = f := by
  rw [PAGE_SHIFT, Nat.shiftRight_eq_div_pow, show (2:Nat) ^ 12 = 4096 by norm_num]
  omega

theorem canon_slot (f sl d : Nat) (hsl : sl < 4) (hd : d < 16) :
    ((4096 * f + 1024 * sl + 32 * d + 1) >>> 10) &&& 0x3 = sl := by
  rw [Nat.shiftRight_eq_div_pow, show (2:Nat) ^ 10 = 1024 by norm_num,
      show (0x3:Nat) = 4 - 1 by norm_num, and_mod_pow 2 _ (by norm_num)]
  omega

theorem canon_slot_l2 (f sl d : Nat) (hsl : sl < 4) (hd : d < 16) :
    ((4096 * f + 1024 * sl + 32 * d + 1) &&& 0xc00) >>> 10 = sl := by
  rw [show (0xc00:Nat) = 0x3 <<< 10 by decide, and_shl, shl_shr_cancel]
  exact canon_slot f sl d hsl hd

/-! ## Counting helper lemmas -/

theorem countP_range4 (g : Nat → Bool) :
    (List.range 4).countP g =
      (if g 0 then 1 else 0) + (if g 1 then 1 else 0) +
      (if g 2 then 1 else 0) + (if g 3 then 1 else 0) := by
  rw [show List.range 4 = [0, 1, 2, 3] from rfl]
  simp [List.countP_cons]
  cases g 0 <;> cases g 1 <;> cases g 2 <;> cases g 3 <;> simp

theorem countP_range4_add (g g2 : Nat → Bool) (sl0 : Nat) (h0 : sl0 < 4)
    (hg : ∀ sl, sl < 4 → sl ≠ sl0 → g2 sl = g sl)
    (hold : g sl0 = false) (hnew : g2 sl0 = true) :
    (List.range 4).countP g2 = (List.range 4).countP g + 1 := by
  rw [countP_range4, countP_range4]
  rcases (by omega : sl0 = 0 ∨ sl0 = 1 ∨ sl0 = 2 ∨ sl0 = 3) with rfl | rfl | rfl | rfl <;>
    [rw [hnew, hold, hg 1 (by omega) (by omega), hg 2 (by omega) (by omega),
         hg 3 (by omega) (by omega)];
     rw [hnew, hold, hg 0 (by omega) (by omega), hg 2 (by omega) (by omega),
         hg 3 (by omega) (by omega)];
     rw [hnew, hold, hg 0 (by omega) (by omega), hg 1 (by omega) (by omega),
         hg 3 (by omega) (by omega)];
     rw [hnew, hold, hg 0 (by omega) (by omega), hg 1 (by omega) (by omega),
         hg 2 (by omega) (by omega)]] <;>
    simp <;> omega

theorem countP_range4_sub (g g2 : Nat → Bool) (sl0 : Nat) (h0 : sl0 < 4)
    (hg : ∀ sl, sl < 4 → sl ≠ sl0 → g2 sl = g sl)
    (hold : g sl0 = true) (hnew : g2 sl0 = false) :
    (List.range 4).countP g2 + 1 = (List.range 4).countP g := by
  have := countP_range4_add g2 g sl0 h0 (fun sl h1 h2 => (hg sl h1 h2).symm) hnew hold
  omega

/-- C9: for every guest virtual address, with the guest MMU disabled
`gva_to_gfn` performs no page-table walk (the result is independent of the
guest memory and tables) and returns success (0) with the guest frame number
`gva >>> 12` and maximal access permissions: ap 0xff, apx 0, xn 0. -/
theorem translate_mmu_disabled (c : WalkCtx) (gva uaccess : Nat) (mi : MapInfo) :
    gva_to_gfn { c with mmu_enabled := false } gva uaccess mi =
      some (0, some (gva >>> PAGE_SHIFT),
        { mi with domain_number := 0, ap := 0xff, apx := 0, xn := 0, cache_bits := 0x0c }) := by
  simp [gva_to_gfn]

/-- C4 (code bug, data-abort half): at the concrete failing input — a data
abort with fault code `FSR_TRANS_PAGE` and domain 3 — the source composes
DFSR from the masked code and the domain but then overwrites it wholesale
with `source`, so the domain never reaches bits [7:4] of DFSR (they stay 0,
not 3); the prefetch branch by contrast delivers the composed value to IFSR,
and FAR/pending are set as claimed. -/
theorem generate_mmu_fault_drops_domain :
    (kvm_generate_mmu_fault { guest_exception := ARM_EXCEPTION_DATA_ABORT }
        0x1000 FSR_TRANS_PAGE 3).c5_DFSR = FSR_TRANS_PAGE ∧
    ((kvm_generate_mmu_fault { guest_exception := ARM_EXCEPTION_DATA_ABORT }
        0x1000 FSR_TRANS_PAGE 3).c5_DFSR >>> 4) &&& 0xf ≠ 3 ∧
    (kvm_generate_mmu_fault { guest_exception := ARM_EXCEPTION_DATA_ABORT }
        0x1000 FSR_TRANS_PAGE 3).c6_FAR = 0x1000 ∧
    (kvm_generate_mmu_fault { guest_exception := ARM_EXCEPTION_DATA_ABORT }
        0x1000 FSR_TRANS_PAGE 3).exception_pending &&& EXCEPTION_DATA ≠ 0 ∧
    (kvm_generate_mmu_fault { guest_exception := ARM_EXCEPTION_PREF_ABORT }
        0x1000 FSR_TRANS_PAGE 3).c5_IFSR =
      ((FSR_TRANS_PAGE &&& FSR_TYPE_MASK) ||| (3 <<< 4)) := by
  decide

/-- C5 (code bug): reclaiming a populated shadow L2 entry of domain 0 while
the current DACR (0x3) marks domain 0 Manager releases the page as clean,
although the claim (and the resolver semantics) requires Manager pages to be
released as dirty: the switch in `mapping_is_guest_writable` compares the
unmasked shifted word, which always carries the forced Client bit of domain
15, so no case matches for any domain below 15. -/
theorem release_clean_despite_manager :
    VCPU_DOMAIN_VAL 0x3 0 = DOMAIN_MANAGER ∧
    mapping_is_guest_writable 0x3 0 0x55232 = some false ∧
    release_l2_shadow_entry 0x3 0 0x55232 = some [(0x55, false)] := by
  decide

/-- C7: `map_gva_to_pfn` rejects with -EINVAL, touching nothing, whenever
privileged access is none but user access is not; whenever, in extended
paging mode, privileged is read-only and user is read-write; and whenever,
in legacy mode, privileged is read-only. -/
theorem install_rejects_invalid_aps (s : MState) (rid gva pfn domain priv_ap user_ap exec : Nat)
    (h : (priv_ap = KVM_AP_NONE ∧ user_ap ≠ KVM_AP_NONE) ∨
         (s.mmu_xp = true ∧ priv_ap = KVM_AP_RDONLY ∧ user_ap = KVM_AP_RDWRITE) ∨
         (s.mmu_xp = false ∧ priv_ap = KVM_AP_RDONLY)) :
    map_gva_to_pfn s rid gva pfn domain priv_ap user_ap exec = some (EINVAL_ERR, s) := by
  rcases h with ⟨h1, h2⟩ | ⟨hx, h1, h2⟩ | ⟨hx, h1⟩
  · rw [map_gva_to_pfn, if_pos ⟨h1, h2⟩]
  · subst h1 h2
    simp [map_gva_to_pfn, hx, KVM_AP_NONE, KVM_AP_RDONLY, KVM_AP_RDWRITE]
  · subst h1
    simp [map_gva_to_pfn, hx, KVM_AP_NONE, KVM_AP_RDONLY]

/-- Witness for C7: all three rejection cases fire on concrete states. -/
theorem install_rejects_invalid_aps_witness :
    map_gva_to_pfn exStateR 0 0x100000 0x55 0 KVM_AP_NONE KVM_AP_RDWRITE 0 =
      some (EINVAL_ERR, exStateR) ∧
    map_gva_to_pfn exStateR 0 0x100000 0x55 0 KVM_AP_RDONLY KVM_AP_RDWRITE 0 =
      some (EINVAL_ERR, exStateR) ∧
    map_gva_to_pfn { exStateR with mmu_xp := false } 0 0x100000 0x55 0 KVM_AP_RDONLY KVM_AP_NONE 0 =
      some (EINVAL_ERR, { exStateR with mmu_xp := false }) :=
  ⟨install_rejects_invalid_aps _ _ _ _ _ _ _ _ (Or.inl (by decide)),
   install_rejects_invalid_aps _ _ _ _ _ _ _ _ (Or.inr (Or.inl (by decide))),
   install_rejects_invalid_aps _ _ _ _ _ _ _ _ (Or.inr (Or.inr (by decide)))⟩

end ArmMmu

namespace ArmMmu

/-- C1: for a guest walk through a Coarse L1 entry, if the L1 domain check
resolves to No-Access then `gva_to_gfn` returns `FSR_DOMAIN_PAG` whenever it
returns a fault code at all (in particular even when the L2 stage would also
fault); and if the domain check passes and the L2 stage returns a positive
fault code (translation or permission fault), that L2 code is what the call
returns. -/
theorem coarse_walk_fault_priority (c : WalkCtx) (gva uaccess l1e : Nat) (mi : MapInfo)
    (hmmu : c.mmu_enabled = true)
    (hl1 : c.gmem (c.guest_ttbr ||| ((gva &&& VA_L1_IDX_MASK) >>> VA_L1_IDX_SHIFT)) = some l1e)
    (hty : l1e &&& L1_TYPE_MASK = L1_TYPE_COARSE) :
    ((l1_domain_access c.dacr l1e).1 = DOMAIN_NOACCESS →
      ∀ r : WalkOut, gva_to_gfn c gva uaccess mi = some r → 0 ≤ r.1 →
        r.1 = (FSR_DOMAIN_PAG : Int)) ∧
    ((l1_domain_access c.dacr l1e).1 ≠ DOMAIN_NOACCESS →
      ∀ l2e : Nat, ∀ e : Int, ∀ g : Option Nat, ∀ m : MapInfo,
        c.gmem ((l1e &&& L1_COARSE_MASK) ||| ((gva &&& VA_L2_IDX_MASK) >>> VA_L2_IDX_SHIFT)) = some l2e →
        (if c.mmu_xp then
            trans_coarse_entry_xp c.invisible_gfn gva l2e (l1_domain_access c.dacr l1e).1 uaccess
              { mi with domain_number := (l1_domain_access c.dacr l1e).2 }
          else
            trans_coarse_entry c.mmu_xp c.invisible_gfn gva l2e (l1_domain_access c.dacr l1e).1 uaccess
              { mi with domain_number := (l1_domain_access c.dacr l1e).2 }) = some (e, g, m) →
        0 < e →
        gva_to_gfn c gva uaccess mi = some (e, g, m)) := by
  constructor
  · intro hna r hr hge
    rw [gva_to_gfn, hmmu] at hr
    simp only [hl1, hty, hna] at hr
    simp only [L1_TYPE_COARSE, L1_TYPE_FAULT, DOMAIN_NOACCESS] at hr
    norm_num at hr
    cases hm : c.gmem (l1e &&& L1_COARSE_MASK ||| (gva &&& VA_L2_IDX_MASK) >>> VA_L2_IDX_SHIFT) with
    | none =>
      simp only [hm] at hr
      cases hr
      simp [EFAULT_ERR] at hge
    | some l2e =>
      simp only [hm] at hr
      cases hs : (if c.mmu_xp = true then
          trans_coarse_entry_xp c.invisible_gfn gva l2e 0 uaccess
            { mi with domain_number := (l1_domain_access c.dacr l1e).2 }
        else
          trans_coarse_entry c.mmu_xp c.invisible_gfn gva l2e 0 uaccess
            { mi with domain_number := (l1_domain_access c.dacr l1e).2 }) with
      | none => simp only [hs] at hr; cases hr
      | some out =>
        obtain ⟨err, gfn, m2⟩ := out
        simp only [hs] at hr
        by_cases hlt : err < 0
        · rw [if_pos hlt] at hr
          cases hr
          omega
        · rw [if_neg hlt] at hr
          rw [if_neg (by simp [FSR_DOMAIN_PAG])] at hr
          cases hr
          rfl
  · intro hna l2e e g m hl2 htr he
    rw [gva_to_gfn, hmmu]
    simp only [hl1, hty]
    simp only [L1_TYPE_COARSE, L1_TYPE_FAULT]
    norm_num
    rw [if_neg hna]
    simp only [hl2, htr]
    rw [if_neg (by omega)]
    rw [if_pos (show _ ∧ _ from ⟨fun h => absurd h hna, he⟩)]

/-- Witness for C1: in `exCtx`, domain 3 is No-Access and the L2 entry is a
translation fault, yet the walk returns the domain fault code. -/
theorem coarse_walk_fault_priority_witness :
    gva_to_gfn exCtx 0x00100000 0 {} =
      some ((FSR_DOMAIN_PAG : Int), some 0xffffff, { domain_number := 3 }) ∧
    (((FSR_DOMAIN_PAG : Int), some 0xffffff, ({ domain_number := 3 } : MapInfo)) : WalkOut).1 =
      (FSR_DOMAIN_PAG : Int) := by
  constructor
  · decide
  · exact (coarse_walk_fault_priority exCtx 0x00100000 0 0x8061 {} (by decide) (by decide)
      (by decide)).1 (by decide) _ (by decide) (by decide)

/-- C6: in the section path of the walk, the domain resolution satisfies:
Manager allows the access whatever the AP bits are, No-Access yields the
domain fault whatever the AP bits are, and for Client the outcome is exactly
determined by the page AP bits and the requested mode. -/
theorem section_domain_resolution (c : WalkCtx) (gva uaccess l1e : Nat) (mi : MapInfo)
    (hmmu : c.mmu_enabled = true)
    (hl1 : c.gmem (c.guest_ttbr ||| ((gva &&& VA_L1_IDX_MASK) >>> VA_L1_IDX_SHIFT)) = some l1e)
    (hty : l1e &&& L1_TYPE_MASK = L1_TYPE_SECTION) :
    ∀ r : WalkOut, gva_to_gfn c gva uaccess mi = some r → 0 ≤ r.1 →
      (((l1_domain_access c.dacr l1e).1 = DOMAIN_MANAGER → r.1 = 0) ∧
       ((l1_domain_access c.dacr l1e).1 = DOMAIN_NOACCESS → r.1 = (FSR_DOMAIN_SEC : Int)) ∧
       ((l1_domain_access c.dacr l1e).1 = DOMAIN_CLIENT →
          r.1 = (if kvm_decode_ap ((l1e &&& L1_SECTION_AP_MASK) >>> L1_SECTION_AP_SHIFT) uaccess = KVM_AP_NONE
                 then (FSR_PERM_SEC : Int) else 0))) := by
  intro r hr hge
  rw [gva_to_gfn, hmmu] at hr
  simp only [hl1, hty] at hr
  simp only [L1_TYPE_SECTION, L1_TYPE_FAULT, L1_TYPE_COARSE] at hr
  norm_num at hr
  refine ⟨?_, ?_, ?_⟩
  · intro h
    rw [h] at hr
    simp only [DOMAIN_MANAGER, DOMAIN_NOACCESS, DOMAIN_CLIENT] at hr
    norm_num at hr
    split at hr
    · split at hr
      · cases hr; simp [EINVAL_ERR] at hge
      · cases hr; rfl
    · cases hr; rfl
  · intro h
    rw [h] at hr
    simp only [DOMAIN_NOACCESS] at hr
    norm_num at hr
    split at hr
    · split at hr
      · cases hr; simp [EINVAL_ERR] at hge
      · cases hr; rfl
    · cases hr; rfl
  · intro h
    rw [h] at hr
    simp only [DOMAIN_CLIENT, DOMAIN_NOACCESS] at hr
    norm_num at hr
    split at hr
    · split at hr
      · cases hr; simp [EINVAL_ERR] at hge
      · cases hr; rfl
    · cases hr; rfl

/-- Witness for C6: in `exCtxSec` the section entry has domain 3, marked
Client, with AP bits denying everything, and the privileged walk reports the
section permission fault. -/
theorem section_domain_resolution_witness :
    gva_to_gfn exCtxSec 0x00100000 0 {} =
      some ((FSR_PERM_SEC : Int), some 0x7ff00, { domain_number := 3 }) ∧
    (((FSR_PERM_SEC : Int), some 0x7ff00, ({ domain_number := 3 } : MapInfo)) : WalkOut).1 =
      (if kvm_decode_ap ((0x7ff00062 &&& L1_SECTION_AP_MASK) >>> L1_SECTION_AP_SHIFT) 0 = KVM_AP_NONE
       then (FSR_PERM_SEC : Int) else 0) := by
  constructor
  · decide
  · exact ((section_domain_resolution exCtxSec 0x00100000 0 0x7ff00062 {} (by decide) (by decide)
      (by decide)) _ (by decide) (by decide)).2.2 (by decide)

end ArmMmu

namespace ArmMmu

/-- C10: `unmap_gva` on an already-absent mapping returns success and leaves
the state (shadow tables, counters, release log — everything) unchanged; and
`kvm_switch_host_vectors` to the already-active base returns 0 and changes
nothing. -/
theorem unmap_and_switch_idempotent (s : MState) (rid gva : Nat) (pgd : Nat → Nat) (high : Bool)
    (hg : gva < 2 ^ 32)
    (hr : s.roots.lookup rid = some pgd)
    (habs : mapping_absent s pgd gva)
    (hh : high = s.host_vectors_high) :
    unmap_gva s rid gva = some (0, s) ∧ kvm_switch_host_vectors s high = some (0, s) := by
  constructor
  · unfold unmap_gva
    rw [land_mask32_of_lt hg]
    simp only [hr]
    rcases habs with hf | ⟨hc, f, sl, hget, hw⟩
    · rw [if_pos hf]
    · rw [if_neg (by rw [hc]; decide), if_pos hc]
      simp only [hget]
      rw [writeWord_eq_self _ _ _ _ hw]
  · unfold kvm_switch_host_vectors
    rw [if_pos hh]

/-- Witness for C10: over a fresh root, unmapping an unmapped page and
re-selecting the active vector base are both observable no-ops. -/
theorem unmap_and_switch_idempotent_witness :
    unmap_gva exStateR 0 0x00300000 = some (0, exStateR) ∧
    kvm_switch_host_vectors exStateR true = some (0, exStateR) :=
  unmap_and_switch_idempotent exStateR 0 0x00300000 (fun _ => 0) true
    (by decide) rfl (Or.inl (by decide)) rfl


/-- C8: an install whose gva lies in the 1 MiB L1 region of the shared
communication page or of the current host exception-vector base behaves
exactly as the same install with the reserved special domain and the
`dom_to_ap`-converted access permissions; and on success the written shadow
L1 entry carries domain field `KVM_SPECIAL_DOMAIN`, not the caller's. -/
theorem special_region_forces_special_domain (s : MState) (rid gva pfn domain ap apx xn : Nat)
    (hreg : gva >>> 20 = s.shared_page_base >>> 20 ∨ gva >>> 20 = host_excp_base s >>> 20)
    (hd : domain ≠ KVM_SPECIAL_DOMAIN) :
    (__map_gva_to_pfn s rid gva pfn domain ap apx xn =
      __map_gva_to_pfn s rid gva pfn KVM_SPECIAL_DOMAIN
        (dom_to_ap s.dacr domain ap apx).1 (dom_to_ap s.dacr domain ap apx).2 xn) ∧
    (∀ ret s2, __map_gva_to_pfn s rid gva pfn domain ap apx xn = some (ret, s2) → ret = 0 →
      ∃ pgd2, s2.roots.lookup rid = some pgd2 ∧
        (pgd2 (gva >>> 20) &&& L1_DOMAIN_MASK) >>> L1_DOMAIN_SHIFT = KVM_SPECIAL_DOMAIN) := by
  have heq : __map_gva_to_pfn s rid gva pfn domain ap apx xn =
      __map_gva_to_pfn s rid gva pfn KVM_SPECIAL_DOMAIN
        (dom_to_ap s.dacr domain ap apx).1 (dom_to_ap s.dacr domain ap apx).2 xn := by
    by_cases hsh : gva >>> 20 = s.shared_page_base >>> 20
    · simp only [__map_gva_to_pfn]
      rw [if_neg hd, if_pos hsh]
      rfl
    · simp only [__map_gva_to_pfn]
      rw [if_neg hd, if_neg hsh, if_pos (hreg.resolve_left hsh)]
      rfl
  refine ⟨heq, ?_⟩
  intro ret s2 hc hret
  rw [heq] at hc
  simp only [__map_gva_to_pfn, eq_self_iff_true, if_true] at hc
  cases hl : s.roots.lookup rid with
  | none =>
    simp only [hl] at hc
    cases hc
    simp [EINVAL_ERR] at hret
  | some pgd =>
    simp only [hl] at hc
    by_cases h0 : pgd (gva >>> 20) &&& L1_TYPE_MASK = L1_TYPE_FAULT
    · rw [if_pos h0] at hc
      cases hc
      refine ⟨Function.update pgd (gva >>> 20)
          (clearBits ((alloc_l2_shadow s).1.1 <<< PAGE_SHIFT ||| (alloc_l2_shadow s).1.2 <<< 10) 0x3ff |||
            L1_TYPE_COARSE ||| ((KVM_SPECIAL_DOMAIN &&& 0xf) <<< L1_DOMAIN_SHIFT)), ?_, ?_⟩
      · rw [writeWord_roots, updateRoot_roots]
        apply lookup_map_update
        rw [alloc_roots, hl]
        rfl
      · rw [Function.update_same]
        have ha : (clearBits ((alloc_l2_shadow s).1.1 <<< PAGE_SHIFT |||
            (alloc_l2_shadow s).1.2 <<< 10) 0x3ff ||| L1_TYPE_COARSE) &&& L1_DOMAIN_MASK = 0 := by
          rw [Nat.and_distrib_right,
              clearBits_and_subset _ (by decide : L1_DOMAIN_MASK &&& 0x3ff = L1_DOMAIN_MASK)]
          decide
        rw [domain_field_or _ _ ha]
        decide
    · by_cases h1 : pgd (gva >>> 20) &&& L1_TYPE_MASK = L1_TYPE_COARSE
      · rw [if_neg h0, if_pos h1] at hc
        cases hg : get_l2_base (updateRoot s rid (Function.update pgd (gva >>> 20)
            (clearBits (pgd (gva >>> 20)) L1_DOMAIN_MASK |||
              ((KVM_SPECIAL_DOMAIN &&& 0xf) <<< L1_DOMAIN_SHIFT))))
            (clearBits (pgd (gva >>> 20)) L1_DOMAIN_MASK |||
              ((KVM_SPECIAL_DOMAIN &&& 0xf) <<< L1_DOMAIN_SHIFT)) with
        | none =>
          simp only [hg] at hc
          cases hc
          simp [EFAULT_ERR] at hret
        | some fs =>
          simp only [hg] at hc
          cases hc
          refine ⟨Function.update pgd (gva >>> 20)
              (clearBits (pgd (gva >>> 20)) L1_DOMAIN_MASK |||
                ((KVM_SPECIAL_DOMAIN &&& 0xf) <<< L1_DOMAIN_SHIFT)), ?_, ?_⟩
          · rw [writeWord_roots, updateRoot_roots]
            apply lookup_map_update
            rw [hl]
            rfl
          · rw [Function.update_same]
            rw [domain_field_or _ _ (clearBits_and_self _ _)]
            decide
      · rw [if_neg h0, if_neg h1] at hc
        cases hc
        simp [EFAULT_ERR] at hret

/-- Witness for C8: an install at the shared-page region (gva 0xf1600000)
with guest domain 0 coincides with the special-domain install with converted
permissions. -/
theorem special_region_forces_special_domain_witness :
    (0xf1600000 >>> 20 = exStateR.shared_page_base >>> 20) ∧
    __map_gva_to_pfn exStateR 0 0xf1600000 0x77 0 0xff 0 0 =
      __map_gva_to_pfn exStateR 0 0xf1600000 0x77 KVM_SPECIAL_DOMAIN
        (dom_to_ap exStateR.dacr 0 0xff 0).1 (dom_to_ap exStateR.dacr 0 0xff 0).2 0 :=
  ⟨by decide, (special_region_forces_special_domain exStateR 0 0xf1600000 0x77 0 0xff 0 0
      (Or.inl (by decide)) (by decide)).1⟩


/-! ## Helper lemmas for the teardown path -/

theorem free_l2_shadow_roots (s : MState) (l1 g : Nat) (s2 : MState)
    (h : free_l2_shadow s l1 g = some s2) : s2.roots = s.roots := by
  unfold free_l2_shadow at h
  cases hrel : release_subtable s.dacr (s.frames (l1 >>> PAGE_SHIFT)).words
      ((l1 &&& 0xc00) >>> 10) ((l1 &&& L1_DOMAIN_MASK) >>> L1_DOMAIN_SHIFT) with
  | none => simp only [hrel] at h; cases h
  | some evs =>
    simp only [hrel] at h
    by_cases hp : (s.frames (l1 >>> PAGE_SHIFT)).priv = 0
    · rw [if_pos hp] at h; cases h
    · rw [if_neg hp] at h
      split at h <;> (cases h; rfl)

theorem foldl_children_none (t : List Nat) (rid : Nat) :
    t.foldl (fun acc j => match acc with
      | none => none
      | some s2 => free_children_step s2 rid j) none = none := by
  induction t with
  | nil => rfl
  | cons a b ih => rw [List.foldl_cons]; exact ih

theorem free_children_step_keeps (s s2 : MState) (rid i j ty : Nat) (hij : j ≠ i)
    (hP : KeepsType rid i ty s) (h : free_children_step s rid j = some s2) :
    KeepsType rid i ty s2 := by
  obtain ⟨pgd, hl, hty⟩ := hP
  unfold free_children_step at h
  simp only [hl] at h
  by_cases h0 : pgd j &&& L1_TYPE_MASK = L1_TYPE_FAULT
  · rw [if_pos h0] at h
    cases h
    exact ⟨pgd, hl, hty⟩
  · rw [if_neg h0] at h
    by_cases h1 : pgd j &&& L1_TYPE_MASK = L1_TYPE_COARSE
    · rw [if_pos h1] at h
      cases hf : free_l2_shadow s (pgd j) (j <<< 20) with
      | none => simp only [hf] at h; cases h
      | some s3 =>
        simp only [hf] at h
        cases h
        refine ⟨Function.update pgd j 0, ?_, ?_⟩
        · rw [updateRoot_roots]
          apply lookup_map_update
          rw [free_l2_shadow_roots s _ _ _ hf, hl]
          rfl
        · rw [Function.update_noteq (Ne.symm hij), hty]
    · rw [if_neg h1] at h
      cases h

theorem free_children_fold_none (l : List Nat) (s : MState) (rid i : Nat)
    (hmem : i ∈ l)
    (hP : KeepsType rid i L1_TYPE_SECTION s ∨ KeepsType rid i 0x3 s) :
    l.foldl (fun acc j => match acc with
      | none => none
      | some s2 => free_children_step s2 rid j) (some s) = none := by
  induction l generalizing s with
  | nil => cases hmem
  | cons j t ih =>
    by_cases hji : j = i
    · subst hji
      have hstep : free_children_step s rid j = none := by
        rcases hP with ⟨pgd, hl, hty⟩ | ⟨pgd, hl, hty⟩ <;>
        · simp only [free_children_step, hl]
          rw [if_neg (by rw [hty]; decide), if_neg (by rw [hty]; decide)]
      simp only [List.foldl_cons, hstep]
      exact foldl_children_none t rid
    · rw [List.foldl_cons]
      cases hstep : free_children_step s rid j with
      | none =>
        simp only [hstep]
        exact foldl_children_none t rid
      | some s2 =>
        simp only [hstep]
        apply ih s2 (List.mem_of_ne_of_mem (Ne.symm hji) hmem)
        rcases hP with hP | hP
        · exact Or.inl (free_children_step_keeps s s2 rid i j _ hji hP hstep)
        · exact Or.inr (free_children_step_keeps s s2 rid i j _ hji hP hstep)

/-- C3 counterexample: on a shadow L1 entry that is neither Fault nor Coarse
(a section-typed entry), `__map_gva_to_pfn`, `unmap_gva` and
`unmap_gva_section` do NOT halt: they return -EFAULT and leave the table
unchanged, contradicting the claim that every shadow-table operation halts
on such an entry. -/
theorem map_bad_l1_returns_not_halts :
    __map_gva_to_pfn exStateBad 0 0x00100000 0x55 0 0xff 0 0 = some (EFAULT_ERR, exStateBad) ∧
    unmap_gva exStateBad 0 0x00100000 = some (EFAULT_ERR, exStateBad) ∧
    unmap_gva_section exStateBad 0 0x00100000 = some (EFAULT_ERR, exStateBad) :=
  ⟨rfl, rfl, rfl⟩

/-- C3 (amended): encountering a shadow L1 entry that is neither Fault nor
Coarse makes `__map_gva_to_pfn`, `unmap_gva` and `unmap_gva_section` return
the error -EFAULT with the state untouched (they refuse but do not halt),
while freeing a root's children over such an entry halts as a fatal internal
error, and releasing or shadowing a large-page L2 descriptor halts as a
fatal internal error. -/
theorem bad_descriptor_handling (s : MState) (rid gva pfn domain ap apx xn i : Nat)
    (pgd : Nat → Nat)
    (hr : s.roots.lookup rid = some pgd)
    (hb1 : pgd (gva >>> 20) &&& L1_TYPE_MASK ≠ L1_TYPE_FAULT)
    (hb2 : pgd (gva >>> 20) &&& L1_TYPE_MASK ≠ L1_TYPE_COARSE)
    (hg : gva < 2 ^ 32)
    (hi : i < L1_TABLE_ENTRIES)
    (hbi : pgd i &&& L1_TYPE_MASK = L1_TYPE_SECTION ∨ pgd i &&& L1_TYPE_MASK = 0x3) :
    __map_gva_to_pfn s rid gva pfn domain ap apx xn = some (EFAULT_ERR, s) ∧
    unmap_gva s rid gva = some (EFAULT_ERR, s) ∧
    unmap_gva_section s rid gva = some (EFAULT_ERR, s) ∧
    __free_l1_shadow_children s rid = none ∧
    (∀ dacr2 dom2 pte, pte &&& L2_TYPE_MASK = L2_TYPE_LARGE →
      release_l2_shadow_entry dacr2 dom2 pte = none) ∧
    (∀ xp inv g2 dt ua mi pte, pte &&& L2_TYPE_MASK = L2_TYPE_LARGE →
      trans_coarse_entry xp inv g2 pte dt ua mi = none ∧
      trans_coarse_entry_xp inv g2 pte dt ua mi = none) := by
  have hm : gva &&& 0xffffffff = gva := land_mask32_of_lt hg
  refine ⟨?_, ?_, ?_, ?_, ?_, ?_⟩
  · simp only [__map_gva_to_pfn, hr]
    rw [if_neg hb1, if_neg hb2]
  · simp only [unmap_gva, hm, hr]
    rw [if_neg hb1, if_neg hb2]
  · simp only [unmap_gva_section, hm, hr]
    rw [if_neg hb1, if_neg hb2]
  · unfold __free_l1_shadow_children
    apply free_children_fold_none _ _ _ i (List.mem_range.mpr hi)
    rcases hbi with hbi | hbi
    · exact Or.inl ⟨pgd, hr, hbi⟩
    · exact Or.inr ⟨pgd, hr, hbi⟩
  · intro dacr2 dom2 pte hpte
    unfold release_l2_shadow_entry
    rw [hpte]
    simp [L2_TYPE_FAULT, L2_TYPE_LARGE, L2_XP_TYPE_EXT_SMALL]
  · intro xp inv g2 dt ua mi pte hpte
    constructor
    · unfold trans_coarse_entry
      rw [hpte]
      simp [L2_TYPE_FAULT, L2_TYPE_LARGE]
    · unfold trans_coarse_entry_xp
      rw [hpte]
      simp [L2_TYPE_FAULT, L2_TYPE_LARGE]

/-- Witness for the amended C3: in `exStateBad` the error returns and the
fatal halts all materialize. -/
theorem bad_descriptor_handling_witness :
    unmap_gva exStateBad 0 0x00100000 = some (EFAULT_ERR, exStateBad) ∧
    __free_l1_shadow_children exStateBad 0 = none ∧
    release_l2_shadow_entry 0 0 0x55001 = none :=
  ⟨(bad_descriptor_handling exStateBad 0 0x00100000 0 0 0 0 0 1 (fun i => if i = 1 then 2 else 0)
      rfl (by decide) (by decide) (by decide) (by decide) (Or.inl (by decide))).2.1,
   (bad_descriptor_handling exStateBad 0 0x00100000 0 0 0 0 0 1 (fun i => if i = 1 then 2 else 0)
      rfl (by decide) (by decide) (by decide) (by decide) (Or.inl (by decide))).2.2.2.1,
   (bad_descriptor_handling exStateBad 0 0x00100000 0 0 0 0 0 1 (fun i => if i = 1 then 2 else 0)
      rfl (by decide) (by decide) (by decide) (by decide) (Or.inl (by decide))).2.2.2.2.1
      0 0 0x55001 (by decide)⟩

end ArmMmu

namespace ArmMmu

theorem coarseRefs_zero (f sl : Nat) : coarseRefs 0 f sl = false := rfl

theorem coarseRefs_of_not_coarse {e : Nat} (h : e &&& L1_TYPE_MASK ≠ L1_TYPE_COARSE)
    (f sl : Nat) : coarseRefs e f sl = false := by
  unfold coarseRefs
  simp [h]

theorem coarseRefs_canon_iff (f sl d f0 sl0 : Nat) (hsl : sl < 4) (hd : d < 16) :
    coarseRefs (4096 * f + 1024 * sl + 32 * d + 1) f0 sl0 = ((f == f0) && (sl == sl0)) := by
  unfold coarseRefs
  rw [canon_type, canon_frame f sl d hsl hd, canon_slot f sl d hsl hd]
  simp

theorem mem_of_lookup {l : List (Nat × (Nat → Nat))} {rid : Nat} {pgd : Nat → Nat}
    (h : l.lookup rid = some pgd) : (rid, pgd) ∈ l := by
  induction l with
  | nil => cases h
  | cons p t ih =>
    obtain ⟨k, v⟩ := p
    by_cases hk : rid = k
    · subst hk
      simp only [List.lookup, beq_self_eq_true] at h
      cases h
      exact List.mem_cons_self _ _
    · have hb : (rid == k) = false := beq_eq_false_iff_ne.mpr hk
      simp only [List.lookup, hb] at h
      exact List.mem_cons_of_mem _ (ih h)

theorem nodup_key_eq {l : List (Nat × (Nat → Nat))} (h : (l.map Prod.fst).Nodup)
    {p q : Nat × (Nat → Nat)} (hp : p ∈ l) (hq : q ∈ l) (hk : p.1 = q.1) : p = q := by
  induction l with
  | nil => cases hp
  | cons a t ih =>
    rw [List.map_cons, List.nodup_cons] at h
    rcases List.mem_cons.mp hp with rfl | hp2
    · rcases List.mem_cons.mp hq with rfl | hq2
      · rfl
      · exfalso
        apply h.1
        rw [hk]
        exact List.mem_map_of_mem Prod.fst hq2
    · rcases List.mem_cons.mp hq with rfl | hq2
      · exfalso
        apply h.1
        rw [← hk]
        exact List.mem_map_of_mem Prod.fst hp2
      · exact ih h.2 hp2 hq2

theorem lookup_eq_of_mem {l : List (Nat × (Nat → Nat))} (h : (l.map Prod.fst).Nodup)
    {rid : Nat} {pgd : Nat → Nat} (hm : (rid, pgd) ∈ l) : l.lookup rid = some pgd := by
  induction l with
  | nil => cases hm
  | cons a t ih =>
    obtain ⟨k, v⟩ := a
    rw [List.map_cons, List.nodup_cons] at h
    rcases List.mem_cons.mp hm with he | hm2
    · cases he
      simp [List.lookup]
    · have hk : rid ≠ k := by
        intro he2
        apply h.1
        have hmm : rid ∈ t.map Prod.fst := List.mem_map_of_mem Prod.fst hm2
        rw [he2] at hmm
        exact hmm
      have hb : (rid == k) = false := beq_eq_false_iff_ne.mpr hk
      simp only [List.lookup, hb]
      exact ih h.2 hm2

theorem refsFrom_update_eq (pgd : Nat → Nat) (idx e f sl : Nat)
    (he : coarseRefs e f sl = coarseRefs (pgd idx) f sl) :
    refsFrom (Function.update pgd idx e) f sl = refsFrom pgd f sl := by
  unfold refsFrom
  apply Bool.eq_iff_iff.mpr
  simp only [List.any_eq_true, List.mem_range]
  constructor
  · rintro ⟨i, hi, hc⟩
    by_cases hii : i = idx
    · subst hii
      rw [Function.update_same] at hc
      exact ⟨i, hi, he.symm.trans hc⟩
    · rw [Function.update_noteq hii] at hc
      exact ⟨i, hi, hc⟩
  · rintro ⟨i, hi, hc⟩
    by_cases hii : i = idx
    · subst hii
      refine ⟨i, hi, ?_⟩
      rw [Function.update_same]
      exact he.trans hc
    · exact ⟨i, hi, by rw [Function.update_noteq hii]; exact hc⟩

theorem refsFrom_update_true (pgd : Nat → Nat) (idx e f sl : Nat) (hidx : idx < L1_TABLE_ENTRIES)
    (he : coarseRefs e f sl = true) :
    refsFrom (Function.update pgd idx e) f sl = true := by
  unfold refsFrom
  simp only [List.any_eq_true, List.mem_range]
  exact ⟨idx, hidx, by rw [Function.update_same]; exact he⟩

theorem refsFrom_update_false (pgd : Nat → Nat) (idx e f sl : Nat)
    (he : coarseRefs e f sl = false)
    (hothers : ∀ i, i < L1_TABLE_ENTRIES → i ≠ idx → coarseRefs (pgd i) f sl = false) :
    refsFrom (Function.update pgd idx e) f sl = false := by
  unfold refsFrom
  simp only [List.any_eq_false, List.mem_range, Bool.not_eq_true]
  intro i hi
  by_cases hii : i = idx
  · subst hii
    rw [Function.update_same]
    exact he
  · rw [Function.update_noteq hii]
    exact hothers i hi hii

theorem refsFrom_false_of_all (pgd : Nat → Nat) (f sl : Nat)
    (h : ∀ i, i < L1_TABLE_ENTRIES → coarseRefs (pgd i) f sl = false) :
    refsFrom pgd f sl = false := by
  unfold refsFrom
  simp only [List.any_eq_false, List.mem_range, Bool.not_eq_true]
  exact h

theorem refsFrom_true_iff (pgd : Nat → Nat) (f sl : Nat) :
    refsFrom pgd f sl = true ↔ ∃ i, i < L1_TABLE_ENTRIES ∧ coarseRefs (pgd i) f sl = true := by
  unfold refsFrom
  simp only [List.any_eq_true, List.mem_range]

theorem refsBool_true_iff (s : MState) (f sl : Nat) :
    refsBool s f sl = true ↔ ∃ p ∈ s.roots, refsFrom p.2 f sl = true := by
  unfold refsBool
  simp only [List.any_eq_true]

theorem list_any_congr {α : Type} {p q : α → Bool} (l : List α) (h : ∀ a ∈ l, p a = q a) :
    l.any p = l.any q := by
  induction l with
  | nil => rfl
  | cons a t ih =>
    simp only [List.any_cons]
    rw [h a (List.mem_cons_self a t), ih fun b hb => h b (List.mem_cons_of_mem a hb)]

theorem refsBool_updateRoot (s : MState) (rid : Nat) (newpgd : Nat → Nat) (f sl : Nat) :
    refsBool (updateRoot s rid newpgd) f sl =
      s.roots.any fun p => if p.1 = rid then refsFrom newpgd f sl else refsFrom p.2 f sl := by
  unfold refsBool
  rw [updateRoot_roots, List.any_map]
  apply list_any_congr
  intro p _
  by_cases hp : p.1 = rid
  · simp [hp, Function.comp]
  · simp [hp, Function.comp]

end ArmMmu

namespace ArmMmu

theorem refsBool_roots_eq {s s2 : MState} (h : s2.roots = s.roots) (f sl : Nat) :
    refsBool s2 f sl = refsBool s f sl := by
  unfold refsBool
  rw [h]

theorem countRefs_roots_eq {s s2 : MState} (h : s2.roots = s.roots) (f : Nat) :
    countRefs s2 f = countRefs s f := by
  unfold countRefs
  exact List.countP_congr fun sl _ => by rw [refsBool_roots_eq h]

theorem refs_frame_lt (s : MState) (hw : WF s) (f sl : Nat) (h : refsBool s f sl = true) :
    f < s.nextFrame := by
  obtain ⟨p, hp, hf⟩ := (refsBool_true_iff s f sl).mp h
  obtain ⟨i, hi, hc⟩ := (refsFrom_true_iff p.2 f sl).mp hf
  rcases hw.canon p hp i hi with h0 | ⟨f1, sl1, d1, hf1, hsl1, hd1, he⟩
  · rw [h0, coarseRefs_zero] at hc
    cases hc
  · rw [he, coarseRefs_canon_iff _ _ _ _ _ hsl1 hd1] at hc
    obtain ⟨hc1, hc2⟩ := Bool.and_eq_true_iff.mp hc
    exact beq_iff_eq.mp hc1 ▸ hf1

theorem refsBool_eq_false_of_ge (s : MState) (hw : WF s) (f : Nat)
    (hge : s.nextFrame ≤ f) (sl : Nat) : refsBool s f sl = false := by
  by_contra hne
  have := refs_frame_lt s hw f sl (Bool.of_not_eq_false hne)
  omega

theorem countRefs_eq_zero_of_ge (s : MState) (hw : WF s) (f : Nat)
    (hge : s.nextFrame ≤ f) : countRefs s f = 0 := by
  unfold countRefs
  rw [List.countP_eq_zero]
  intro sl _
  rw [refsBool_eq_false_of_ge s hw f hge sl]
  decide

theorem updateRoot_ids (s : MState) (rid : Nat) (pgd : Nat → Nat) :
    (updateRoot s rid pgd).roots.map Prod.fst = s.roots.map Prod.fst := by
  rw [updateRoot_roots, List.map_map]
  apply List.map_congr_left
  intro p _
  by_cases hp : p.1 = rid
  · simp [hp, Function.comp]
  · simp [hp, Function.comp]

theorem mem_updateRoot (s : MState) (rid : Nat) (pgd2 : Nat → Nat) :
    ∀ p ∈ (updateRoot s rid pgd2).roots,
      (p ∈ s.roots ∧ p.1 ≠ rid) ∨ (p.1 = rid ∧ p.2 = pgd2 ∧ ∃ q ∈ s.roots, q.1 = rid) := by
  intro p hp
  rw [updateRoot_roots] at hp
  obtain ⟨q, hq, hqe⟩ := List.mem_map.mp hp
  by_cases hqr : q.1 = rid
  · right
    rw [if_pos hqr] at hqe
    subst hqe
    exact ⟨rfl, rfl, q, hq, hqr⟩
  · left
    rw [if_neg hqr] at hqe
    subst hqe
    exact ⟨hq, hqr⟩

theorem refsBool_updateRoot_eq (s : MState) (hn : (s.roots.map Prod.fst).Nodup)
    (rid : Nat) (pgd pgd2 : Nat → Nat) (hl : s.roots.lookup rid = some pgd)
    (f sl : Nat) (hsame : refsFrom pgd2 f sl = refsFrom pgd f sl) :
    refsBool (updateRoot s rid pgd2) f sl = refsBool s f sl := by
  rw [refsBool_updateRoot]
  unfold refsBool
  apply list_any_congr
  intro p hp
  by_cases hpr : p.1 = rid
  · have hpe : p = (rid, pgd) := nodup_key_eq hn hp (mem_of_lookup hl) hpr
    rw [if_pos hpr, hpe, hsame]
  · rw [if_neg hpr]

theorem list_any_filter {α : Type} (l : List α) (q g : α → Bool)
    (h : ∀ a ∈ l, q a = false → g a = false) : (l.filter q).any g = l.any g := by
  induction l with
  | nil => rfl
  | cons a t ih =>
    have ih2 := ih fun b hb hbq => h b (List.mem_cons_of_mem a hb) hbq
    cases hq : q a with
    | true => simp [List.filter_cons, hq, ih2]
    | false =>
      have hg := h a (List.mem_cons_self a t) hq
      simp [List.filter_cons, hq, hg, ih2]

theorem lookup_none_keys {l : List (Nat × (Nat → Nat))} {rid : Nat}
    (h : l.lookup rid = none) : ∀ p ∈ l, p.1 ≠ rid := by
  induction l with
  | nil => intro p hp; cases hp
  | cons a t ih =>
    obtain ⟨k, v⟩ := a
    intro p hp
    by_cases hk : rid = k
    · subst hk
      simp [List.lookup] at h
    · have hb : (rid == k) = false := beq_eq_false_iff_ne.mpr hk
      simp only [List.lookup, hb] at h
      rcases List.mem_cons.mp hp with rfl | hp2
      · exact fun he => hk he.symm
      · exact ih h p hp2

theorem free_l2_shadow_spec (s : MState) (l1 g : Nat) (s2 : MState)
    (h : free_l2_shadow s l1 g = some s2) :
    s2.roots = s.roots ∧ s2.nextFrame = s.nextFrame ∧ s2.l2_unused = s.l2_unused ∧
    s2.nextRoot = s.nextRoot ∧
    (s.frames (l1 >>> PAGE_SHIFT)).priv ≠ 0 ∧
    (∀ f2, (s2.frames f2).priv =
      if f2 = l1 >>> PAGE_SHIFT then (s.frames f2).priv - 1 else (s.frames f2).priv) := by
  unfold free_l2_shadow at h
  cases hrel : release_subtable s.dacr (s.frames (l1 >>> PAGE_SHIFT)).words
      ((l1 &&& 0xc00) >>> 10) ((l1 &&& L1_DOMAIN_MASK) >>> L1_DOMAIN_SHIFT) with
  | none => simp only [hrel] at h; cases h
  | some evs =>
    simp only [hrel] at h
    by_cases hp : (s.frames (l1 >>> PAGE_SHIFT)).priv = 0
    · rw [if_pos hp] at h; cases h
    · rw [if_neg hp] at h
      split at h <;>
      · cases h
        refine ⟨rfl, rfl, rfl, rfl, hp, ?_⟩
        intro f2
        by_cases hf2 : f2 = l1 >>> PAGE_SHIFT
        · rw [if_pos hf2, hf2]
          show (Function.update s.frames _ _ _).priv = _
          rw [Function.update_same]
        · rw [if_neg hf2]
          show (Function.update s.frames _ _ f2).priv = _
          rw [Function.update_noteq hf2]

end ArmMmu

namespace ArmMmu

theorem coarseRefs_true_iff (e f sl : Nat) :
    coarseRefs e f sl = true ↔
      e &&& L1_TYPE_MASK = L1_TYPE_COARSE ∧ e >>> PAGE_SHIFT = f ∧ (e >>> 10) &&& 0x3 = sl := by
  unfold coarseRefs
  simp [and_assoc]

theorem WF_congr (s s2 : MState) (hw : WF s)
    (hroots : s2.roots = s.roots) (hnf : s2.nextFrame = s.nextFrame)
    (hnr : s2.nextRoot = s.nextRoot)
    (hlu : s2.l2_unused = s.l2_unused ∨ s2.l2_unused = none)
    (hpriv : ∀ f, (s2.frames f).priv = (s.frames f).priv) : WF s2 := by
  constructor
  · rw [hroots]; exact hw.ids_nodup
  · rw [hroots, hnr]; exact hw.ids_lt
  · rw [hroots, hnf]; exact hw.canon
  · rw [hroots]; exact hw.inj
  · intro f
    rw [hpriv f, countRefs_roots_eq hroots]
    exact hw.count f
  · intro f sl hu
    rcases hlu with hlu | hlu
    · rw [hlu] at hu
      obtain ⟨h1, h2, h3⟩ := hw.bump f sl hu
      rw [hroots, hnf]
      exact ⟨h1, h2, h3⟩
    · rw [hlu] at hu
      cases hu

theorem WF_writeWord (s : MState) (hw : WF s) (f w v : Nat) : WF (writeWord s f w v) := by
  refine WF_congr s (writeWord s f w v) hw rfl rfl rfl (Or.inl rfl) ?_
  intro f2
  show (Function.update s.frames f _ f2).priv = _
  by_cases hf2 : f2 = f
  · subst hf2
    rw [Function.update_same]
  · rw [Function.update_noteq hf2]

theorem alloc_l2_shadow_spec (s : MState) (hw : WF s) (f sl : Nat) (s2 : MState)
    (h : alloc_l2_shadow s = ((f, sl), s2)) :
    sl < 4 ∧ f < s2.nextFrame ∧ s.nextFrame ≤ s2.nextFrame ∧
    s2.roots = s.roots ∧ s2.nextRoot = s.nextRoot ∧
    (s2.frames f).priv = (s.frames f).priv + 1 ∧
    (∀ f2, f2 ≠ f → (s2.frames f2).priv = (s.frames f2).priv) ∧
    s2.l2_unused = (if sl + 1 = 4 then none else some (f, sl + 1)) ∧
    (∀ p ∈ s.roots, ∀ i, i < L1_TABLE_ENTRIES →
      p.2 i &&& L1_TYPE_MASK = L1_TYPE_COARSE →
      ¬(p.2 i >>> PAGE_SHIFT = f ∧ sl ≤ (p.2 i >>> 10) &&& 0x3)) := by
  cases hu : s.l2_unused with
  | none =>
    simp only [alloc_l2_shadow, hu, alloc_carve, Prod.mk.injEq] at h
    obtain ⟨⟨hf, hsl⟩, hs⟩ := h
    subst hf; subst hsl; subst hs
    refine ⟨by norm_num, by show _ < s.nextFrame + 1; omega,
      by show _ ≤ s.nextFrame + 1; omega, rfl, rfl, ?_, ?_, by simp, ?_⟩
    · have h0 : (s.frames s.nextFrame).priv = 0 := by
        rw [hw.count]
        exact countRefs_eq_zero_of_ge s hw _ le_rfl
      simp [Function.update_same, h0]
    · intro f2 hf2
      simp [Function.update_noteq hf2]
    · intro p hp i hi hc hcon
      rcases hw.canon p hp i hi with h0 | ⟨f1, sl1, d1, hf1, hsl1, hd1, he⟩
      · rw [h0] at hc
        simp [L1_TYPE_MASK, L1_TYPE_COARSE] at hc
      · rw [he, canon_frame f1 sl1 d1 hsl1 hd1] at hcon
        omega
  | some p0 =>
    obtain ⟨f0, sl0⟩ := p0
    obtain ⟨hsl0, hf0, hfresh⟩ := hw.bump f0 sl0 hu
    simp only [alloc_l2_shadow, hu, alloc_carve, Prod.mk.injEq] at h
    obtain ⟨⟨hf, hsl⟩, hs⟩ := h
    subst hf; subst hsl; subst hs
    refine ⟨hsl0, hf0, le_rfl, rfl, rfl, ?_, ?_, rfl, ?_⟩
    · simp [Function.update_same]
    · intro f2 hf2
      simp [Function.update_noteq hf2]
    · exact hfresh

theorem WF_allocRoot (s : MState) (hw : WF s) : WF (kvm_alloc_l1_shadow s) := by
  have hroots : (kvm_alloc_l1_shadow s).roots = s.roots ++ [(s.nextRoot, fun _ => 0)] := rfl
  have hmem : ∀ p ∈ (kvm_alloc_l1_shadow s).roots,
      p ∈ s.roots ∨ p = (s.nextRoot, fun _ => 0) := by
    intro p hp
    rw [hroots] at hp
    rcases List.mem_append.mp hp with h1 | h2
    · exact Or.inl h1
    · exact Or.inr (List.mem_singleton.mp h2)
  constructor
  · rw [hroots, List.map_append]
    rw [List.nodup_append]
    refine ⟨hw.ids_nodup, List.nodup_singleton _, ?_⟩
    intro a ha hb
    have h1 : a = s.nextRoot := by
      simp only [List.map_cons, List.map_nil, List.mem_singleton] at hb
      exact hb
    obtain ⟨p, hp, hpe⟩ := List.mem_map.mp ha
    have := hw.ids_lt p hp
    omega
  · intro p hp
    show p.1 < s.nextRoot + 1
    rcases hmem p hp with h1 | h2
    · have := hw.ids_lt p h1
      omega
    · rw [h2]
      omega
  · intro p hp i hi
    rcases hmem p hp with h1 | h2
    · rcases hw.canon p h1 i hi with h0 | ⟨f, sl, d, hf, hsl, hd, he⟩
      · exact Or.inl h0
      · exact Or.inr ⟨f, sl, d, hf, hsl, hd, he⟩
    · rw [h2]
      exact Or.inl rfl
  · intro p hp q hq i hi j hj hcp hcq hfr hsl
    rcases hmem p hp with h1 | h2
    · rcases hmem q hq with h1q | h2q
      · exact hw.inj p h1 q h1q i hi j hj hcp hcq hfr hsl
      · rw [h2q] at hcq
        simp [L1_TYPE_MASK, L1_TYPE_COARSE] at hcq
    · rw [h2] at hcp
      simp [L1_TYPE_MASK, L1_TYPE_COARSE] at hcp
  · intro f
    have hrb : ∀ sl, refsBool (kvm_alloc_l1_shadow s) f sl = refsBool s f sl := by
      intro sl
      unfold refsBool
      rw [hroots, List.any_append]
      have : [(s.nextRoot, fun _ => (0:Nat))].any (fun p => refsFrom p.2 f sl) = false := by
        simp only [List.any_cons, List.any_nil, Bool.or_false]
        exact refsFrom_false_of_all _ f sl fun i _ => coarseRefs_zero f sl
      rw [this, Bool.or_false]
    show (s.frames f).priv = _
    rw [hw.count]
    unfold countRefs
    exact (List.countP_congr fun sl _ => by rw [hrb]).symm
  · intro f sl hu
    obtain ⟨h1, h2, h3⟩ := hw.bump f sl hu
    refine ⟨h1, h2, ?_⟩
    intro p hp i hi hc
    rcases hmem p hp with hm1 | hm2
    · exact h3 p hm1 i hi hc
    · rw [hm2] at hc
      simp [L1_TYPE_MASK, L1_TYPE_COARSE] at hc

end ArmMmu

namespace ArmMmu

theorem updated_entry_char (s : MState) (rid : Nat) (pgd : Nat → Nat)
    (hlk : s.roots.lookup rid = some pgd) (idx e : Nat) :
    ∀ p ∈ (updateRoot s rid (Function.update pgd idx e)).roots, ∀ i,
      (∃ q ∈ s.roots, q.1 = p.1 ∧ q.2 i = p.2 i) ∨ (p.1 = rid ∧ i = idx ∧ p.2 i = e) := by
  intro p hp i
  rcases mem_updateRoot s rid _ p hp with ⟨hps, _⟩ | ⟨hp1, hp2, _⟩
  · exact Or.inl ⟨p, hps, rfl, rfl⟩
  · by_cases hii : i = idx
    · subst hii
      right
      refine ⟨hp1, rfl, ?_⟩
      rw [hp2, Function.update_same]
    · left
      refine ⟨(rid, pgd), mem_of_lookup hlk, hp1.symm, ?_⟩
      show pgd i = p.2 i
      rw [hp2, Function.update_noteq hii]

theorem lookup_updateRoot (s : MState) (rid : Nat) (pgd2 : Nat → Nat)
    (h : (s.roots.lookup rid).isSome) :
    (updateRoot s rid pgd2).roots.lookup rid = some pgd2 := by
  rw [updateRoot_roots]
  exact lookup_map_update s.roots rid pgd2 h

theorem WF_install_fault (s : MState) (hw : WF s) (rid : Nat) (pgd : Nat → Nat)
    (hlk : s.roots.lookup rid = some pgd) (idx : Nat) (hidx : idx < L1_TABLE_ENTRIES)
    (hfa : pgd idx &&& L1_TYPE_MASK = L1_TYPE_FAULT)
    (f sl : Nat) (sa : MState) (halloc : alloc_l2_shadow s = ((f, sl), sa))
    (d : Nat) (hd : d < 16) :
    WF (updateRoot sa rid (Function.update pgd idx (4096 * f + 1024 * sl + 32 * d + 1))) := by
  obtain ⟨hsl4, hfn, hmono, hroots, hnr, hprivf, hprivo, hbump2, hfresh⟩ :=
    alloc_l2_shadow_spec s hw f sl sa halloc
  have hlka : sa.roots.lookup rid = some pgd := by rw [hroots]; exact hlk
  have hna : (sa.roots.map Prod.fst).Nodup := by rw [hroots]; exact hw.ids_nodup
  have hchar := updated_entry_char sa rid pgd hlka idx (4096 * f + 1024 * sl + 32 * d + 1)
  have hEtype := canon_type f sl d
  have hEframe := canon_frame f sl d hsl4 hd
  have hEslot := canon_slot f sl d hsl4 hd
  have hnotco : pgd idx &&& L1_TYPE_MASK ≠ L1_TYPE_COARSE := by
    rw [hfa]; decide
  -- refsBool is unchanged away from (f, sl)
  have hrb_ne : ∀ f2 sl2, ¬(f2 = f ∧ sl2 = sl) →
      refsBool (updateRoot sa rid (Function.update pgd idx
        (4096 * f + 1024 * sl + 32 * d + 1))) f2 sl2 = refsBool s f2 sl2 := by
    intro f2 sl2 hne
    have he : coarseRefs (4096 * f + 1024 * sl + 32 * d + 1) f2 sl2 =
        coarseRefs (pgd idx) f2 sl2 := by
      rw [coarseRefs_of_not_coarse hnotco, coarseRefs_canon_iff f sl d f2 sl2 hsl4 hd]
      simp only [Bool.and_eq_false_iff, beq_eq_false_iff_ne]
      tauto
    rw [refsBool_updateRoot_eq sa hna rid pgd _ hlka f2 sl2
      (refsFrom_update_eq pgd idx _ f2 sl2 he)]
    exact refsBool_roots_eq hroots f2 sl2
  have hrb_new : refsBool (updateRoot sa rid (Function.update pgd idx
      (4096 * f + 1024 * sl + 32 * d + 1))) f sl = true := by
    apply (refsBool_true_iff _ f sl).mpr
    refine ⟨(rid, Function.update pgd idx (4096 * f + 1024 * sl + 32 * d + 1)),
      mem_of_lookup (lookup_updateRoot sa rid _ (by rw [hlka]; rfl)), ?_⟩
    apply refsFrom_update_true pgd idx _ f sl hidx
    rw [coarseRefs_canon_iff f sl d f sl hsl4 hd]
    simp
  have hrb_old : refsBool s f sl = false := by
    by_contra hne
    have htrue : refsBool s f sl = true := by
      revert hne; cases refsBool s f sl <;> simp
    obtain ⟨p, hp, hpf⟩ := (refsBool_true_iff s f sl).mp htrue
    obtain ⟨i, hi, hc⟩ := (refsFrom_true_iff p.2 f sl).mp hpf
    obtain ⟨hcc, hcf, hcs⟩ := (coarseRefs_true_iff _ f sl).mp hc
    exact hfresh p hp i hi hcc ⟨hcf, le_of_eq hcs.symm⟩
  constructor
  · rw [updateRoot_ids, hroots]
    exact hw.ids_nodup
  · intro p hp
    show p.1 < sa.nextRoot
    rw [hnr]
    rcases mem_updateRoot sa rid _ p hp with ⟨hps, _⟩ | ⟨hp1, _, q, hq, hq1⟩
    · rw [hroots] at hps
      exact hw.ids_lt p hps
    · rw [hroots] at hq
      rw [hp1, ← hq1]
      exact hw.ids_lt q hq
  · intro p hp i hi
    show p.2 i = 0 ∨ ∃ f' sl' d', f' < sa.nextFrame ∧ sl' < 4 ∧ d' < 16 ∧
      p.2 i = 4096 * f' + 1024 * sl' + 32 * d' + 1
    rcases hchar p hp i with ⟨q, hq, _, hqe⟩ | ⟨_, _, hpe⟩
    · rw [hroots] at hq
      rw [← hqe]
      rcases hw.canon q hq i hi with h0 | ⟨f', sl', d', hf', hsl', hd', he'⟩
      · exact Or.inl h0
      · exact Or.inr ⟨f', sl', d', lt_of_lt_of_le hf' hmono, hsl', hd', he'⟩
    · rw [hpe]
      exact Or.inr ⟨f, sl, d, hfn, hsl4, hd, rfl⟩
  · intro p hp q hq i hi j hj hcp hcq hfr hslq
    rcases hchar p hp i with ⟨qp, hqp, hqp1, hqpe⟩ | ⟨hp1, hiidx, hpe⟩ <;>
      rcases hchar q hq j with ⟨qq, hqq, hqq1, hqqe⟩ | ⟨hq1, hjidx, hqe⟩
    · rw [hroots] at hqp hqq
      rw [← hqpe] at hcp hfr hslq
      rw [← hqqe] at hcq hfr hslq
      obtain ⟨h1, h2⟩ := hw.inj qp hqp qq hqq i hi j hj hcp hcq hfr hslq
      exact ⟨by rw [← hqp1, ← hqq1, h1], h2⟩
    · exfalso
      rw [hroots] at hqp
      rw [← hqpe] at hcp hfr hslq
      rw [hqe, hEframe] at hfr
      rw [hqe, hEslot] at hslq
      exact hfresh qp hqp i hi hcp ⟨hfr, le_of_eq hslq.symm⟩
    · exfalso
      rw [hroots] at hqq
      rw [← hqqe] at hcq hfr hslq
      rw [hpe, hEframe] at hfr
      rw [hpe, hEslot] at hslq
      exact hfresh qq hqq j hj hcq ⟨hfr.symm, le_of_eq hslq⟩
    · rw [hiidx, hjidx]
      exact ⟨by rw [hp1, hq1], rfl⟩
  · intro f2
    show (sa.frames f2).priv = _
    by_cases hf2 : f2 = f
    · subst hf2
      have hcnt : countRefs (updateRoot sa rid (Function.update pgd idx
          (4096 * f2 + 1024 * sl + 32 * d + 1))) f2 = countRefs s f2 + 1 := by
        unfold countRefs
        exact countP_range4_add (refsBool s f2) _ sl hsl4
          (fun sl2 _ hne => hrb_ne f2 sl2 (by tauto)) hrb_old hrb_new
      rw [hcnt, hprivf, hw.count]
    · have hcnt : countRefs (updateRoot sa rid (Function.update pgd idx
          (4096 * f + 1024 * sl + 32 * d + 1))) f2 = countRefs s f2 := by
        unfold countRefs
        exact List.countP_congr fun sl2 _ => by rw [hrb_ne f2 sl2 (by tauto)]
      rw [hcnt, hprivo f2 hf2, hw.count]
  · intro f' sl' hu'
    have hu2 : (if sl + 1 = 4 then none else some (f, sl + 1) : Option (Nat × Nat)) =
        some (f', sl') := by
      rw [← hbump2]; exact hu'
    by_cases h4 : sl + 1 = 4
    · rw [if_pos h4] at hu2
      cases hu2
    · rw [if_neg h4] at hu2
      simp only [Option.some.injEq, Prod.mk.injEq] at hu2
      obtain ⟨hf', hsl'⟩ := hu2
      subst hf'; subst hsl'
      refine ⟨by omega, hfn, ?_⟩
      intro p hp i hi hc
      rcases hchar p hp i with ⟨q, hq, _, hqe⟩ | ⟨_, _, hpe⟩
      · rw [hroots] at hq
        rw [← hqe] at hc ⊢
        intro ⟨ha, hb⟩
        exact hfresh q hq i hi hc ⟨ha, by omega⟩
      · rw [hpe] at hc ⊢
        rw [hEframe, hEslot]
        omega

end ArmMmu

namespace ArmMmu

theorem WF_install_coarse (s : MState) (hw : WF s) (rid : Nat) (pgd : Nat → Nat)
    (hlk : s.roots.lookup rid = some pgd) (idx : Nat) (hidx : idx < L1_TABLE_ENTRIES)
    (f1 sl1 d1 : Nat) (hf1 : f1 < s.nextFrame) (hsl1 : sl1 < 4) (hd1 : d1 < 16)
    (hold : pgd idx = 4096 * f1 + 1024 * sl1 + 32 * d1 + 1)
    (d : Nat) (hd : d < 16) :
    WF (updateRoot s rid (Function.update pgd idx (4096 * f1 + 1024 * sl1 + 32 * d + 1))) := by
  have hchar := updated_entry_char s rid pgd hlk idx (4096 * f1 + 1024 * sl1 + 32 * d + 1)
  have hmem : (rid, pgd) ∈ s.roots := mem_of_lookup hlk
  have hEframe := canon_frame f1 sl1 d hsl1 hd
  have hEslot := canon_slot f1 sl1 d hsl1 hd
  have holdframe : pgd idx >>> PAGE_SHIFT = f1 := by
    rw [hold]; exact canon_frame f1 sl1 d1 hsl1 hd1
  have holdslot : (pgd idx >>> 10) &&& 0x3 = sl1 := by
    rw [hold]; exact canon_slot f1 sl1 d1 hsl1 hd1
  have holdtype : pgd idx &&& L1_TYPE_MASK = L1_TYPE_COARSE := by
    rw [hold]; exact canon_type f1 sl1 d1
  -- refsBool is unchanged everywhere
  have hrb : ∀ f2 sl2,
      refsBool (updateRoot s rid (Function.update pgd idx
        (4096 * f1 + 1024 * sl1 + 32 * d + 1))) f2 sl2 = refsBool s f2 sl2 := by
    intro f2 sl2
    have he : coarseRefs (4096 * f1 + 1024 * sl1 + 32 * d + 1) f2 sl2 =
        coarseRefs (pgd idx) f2 sl2 := by
      rw [hold, coarseRefs_canon_iff f1 sl1 d f2 sl2 hsl1 hd,
          coarseRefs_canon_iff f1 sl1 d1 f2 sl2 hsl1 hd1]
    exact refsBool_updateRoot_eq s hw.ids_nodup rid pgd _ hlk f2 sl2
      (refsFrom_update_eq pgd idx _ f2 sl2 he)
  constructor
  · rw [updateRoot_ids]
    exact hw.ids_nodup
  · intro p hp
    show p.1 < s.nextRoot
    rcases mem_updateRoot s rid _ p hp with ⟨hps, _⟩ | ⟨hp1, _, q, hq, hq1⟩
    · exact hw.ids_lt p hps
    · rw [hp1, ← hq1]
      exact hw.ids_lt q hq
  · intro p hp i hi
    show p.2 i = 0 ∨ ∃ f' sl' d', f' < s.nextFrame ∧ sl' < 4 ∧ d' < 16 ∧
      p.2 i = 4096 * f' + 1024 * sl' + 32 * d' + 1
    rcases hchar p hp i with ⟨q, hq, _, hqe⟩ | ⟨_, _, hpe⟩
    · rw [← hqe]
      exact hw.canon q hq i hi
    · rw [hpe]
      exact Or.inr ⟨f1, sl1, d, hf1, hsl1, hd, rfl⟩
  · intro p hp q hq i hi j hj hcp hcq hfr hslq
    rcases hchar p hp i with ⟨qp, hqp, hqp1, hqpe⟩ | ⟨hp1, hiidx, hpe⟩ <;>
      rcases hchar q hq j with ⟨qq, hqq, hqq1, hqqe⟩ | ⟨hq1, hjidx, hqe⟩
    · rw [← hqpe] at hcp hfr hslq
      rw [← hqqe] at hcq hfr hslq
      obtain ⟨h1, h2⟩ := hw.inj qp hqp qq hqq i hi j hj hcp hcq hfr hslq
      exact ⟨by rw [← hqp1, ← hqq1, h1], h2⟩
    · rw [← hqpe] at hcp hfr hslq
      rw [hqe, hEframe] at hfr
      rw [hqe, hEslot] at hslq
      obtain ⟨h1, h2⟩ := hw.inj qp hqp (rid, pgd) hmem i hi idx hidx hcp holdtype
        (by rw [hfr, holdframe]) (by rw [hslq, holdslot])
      exact ⟨by rw [← hqp1, h1, hq1], by rw [h2, hjidx]⟩
    · rw [← hqqe] at hcq hfr hslq
      rw [hpe, hEframe] at hfr
      rw [hpe, hEslot] at hslq
      obtain ⟨h1, h2⟩ := hw.inj qq hqq (rid, pgd) hmem j hj idx hidx hcq holdtype
        (by rw [← hfr, holdframe]) (by rw [← hslq, holdslot])
      exact ⟨by rw [hp1, ← hqq1, h1], by rw [hiidx, h2]⟩
    · rw [hiidx, hjidx]
      exact ⟨by rw [hp1, hq1], rfl⟩
  · intro f2
    show (s.frames f2).priv = _
    have hcnt : countRefs (updateRoot s rid (Function.update pgd idx
        (4096 * f1 + 1024 * sl1 + 32 * d + 1))) f2 = countRefs s f2 := by
      unfold countRefs
      exact List.countP_congr fun sl2 _ => by rw [hrb f2 sl2]
    rw [hcnt, hw.count]
  · intro f' sl' hu'
    have hu2 : s.l2_unused = some (f', sl') := hu'
    obtain ⟨h1, h2, h3⟩ := hw.bump f' sl' hu2
    refine ⟨h1, h2, ?_⟩
    intro p hp i hi hc
    rcases hchar p hp i with ⟨q, hq, _, hqe⟩ | ⟨_, _, hpe⟩
    · rw [← hqe] at hc ⊢
      exact h3 q hq i hi hc
    · rw [hpe] at hc ⊢
      rw [hEframe, hEslot]
      have := h3 (rid, pgd) hmem idx hidx holdtype
      rw [holdframe, holdslot] at this
      exact this

theorem WF_clear_coarse (s : MState) (hw : WF s) (rid : Nat) (pgd : Nat → Nat)
    (hlk : s.roots.lookup rid = some pgd) (idx : Nat) (hidx : idx < L1_TABLE_ENTRIES)
    (f1 sl1 d1 : Nat) (hsl1 : sl1 < 4) (hd1 : d1 < 16)
    (hold : pgd idx = 4096 * f1 + 1024 * sl1 + 32 * d1 + 1)
    (g : Nat) (sfree : MState) (hfree : free_l2_shadow s (pgd idx) g = some sfree) :
    WF (updateRoot sfree rid (Function.update pgd idx 0)) ∧
    (updateRoot sfree rid (Function.update pgd idx 0)).l2_unused = s.l2_unused ∧
    (updateRoot sfree rid (Function.update pgd idx 0)).nextRoot = s.nextRoot ∧
    (∀ p ∈ (updateRoot sfree rid (Function.update pgd idx 0)).roots,
       ∃ q ∈ s.roots, q.1 = p.1 ∧ ∀ i, p.2 i = q.2 i ∨ p.2 i = 0) ∧
    (updateRoot sfree rid (Function.update pgd idx 0)).roots.lookup rid =
      some (Function.update pgd idx 0) := by
  obtain ⟨hroots, hnf, hlu, hnr, hpriv0, hprivs⟩ := free_l2_shadow_spec s (pgd idx) g sfree hfree
  have holdframe : pgd idx >>> PAGE_SHIFT = f1 := by
    rw [hold]; exact canon_frame f1 sl1 d1 hsl1 hd1
  have holdslot : (pgd idx >>> 10) &&& 0x3 = sl1 := by
    rw [hold]; exact canon_slot f1 sl1 d1 hsl1 hd1
  have holdtype : pgd idx &&& L1_TYPE_MASK = L1_TYPE_COARSE := by
    rw [hold]; exact canon_type f1 sl1 d1
  have hmem : (rid, pgd) ∈ s.roots := mem_of_lookup hlk
  have hlkf : sfree.roots.lookup rid = some pgd := by rw [hroots]; exact hlk
  have hnaf : (sfree.roots.map Prod.fst).Nodup := by rw [hroots]; exact hw.ids_nodup
  have hchar := updated_entry_char sfree rid pgd hlkf idx 0
  have hlku : (updateRoot sfree rid (Function.update pgd idx 0)).roots.lookup rid =
      some (Function.update pgd idx 0) :=
    lookup_updateRoot sfree rid _ (by rw [hlkf]; rfl)
  have hnu : ((updateRoot sfree rid (Function.update pgd idx 0)).roots.map Prod.fst).Nodup := by
    rw [updateRoot_ids, hroots]
    exact hw.ids_nodup
  have hrb_ne : ∀ f2 sl2, ¬(f2 = f1 ∧ sl2 = sl1) →
      refsBool (updateRoot sfree rid (Function.update pgd idx 0)) f2 sl2 =
        refsBool s f2 sl2 := by
    intro f2 sl2 hne
    have he : coarseRefs 0 f2 sl2 = coarseRefs (pgd idx) f2 sl2 := by
      rw [coarseRefs_zero, hold, coarseRefs_canon_iff f1 sl1 d1 f2 sl2 hsl1 hd1]
      symm
      simp only [Bool.and_eq_false_iff, beq_eq_false_iff_ne]
      by_cases hf : f2 = f1
      · exact Or.inr fun hs => hne ⟨hf, hs.symm⟩
      · exact Or.inl fun hf2 => hf hf2.symm
    rw [refsBool_updateRoot_eq sfree hnaf rid pgd _ hlkf f2 sl2
      (refsFrom_update_eq pgd idx _ f2 sl2 he)]
    exact refsBool_roots_eq hroots f2 sl2
  have hrb_new : refsBool (updateRoot sfree rid (Function.update pgd idx 0)) f1 sl1 = false := by
    by_contra hne
    have htrue : refsBool (updateRoot sfree rid (Function.update pgd idx 0)) f1 sl1 = true := by
      revert hne
      cases refsBool (updateRoot sfree rid (Function.update pgd idx 0)) f1 sl1 <;> simp
    obtain ⟨p, hp, hpf⟩ := (refsBool_true_iff _ f1 sl1).mp htrue
    obtain ⟨i, hi, hc⟩ := (refsFrom_true_iff p.2 f1 sl1).mp hpf
    rcases hchar p hp i with ⟨q, hq, hq1, hqe⟩ | ⟨_, _, hpe⟩
    · rw [← hqe] at hc
      obtain ⟨hcc, hcf, hcs⟩ := (coarseRefs_true_iff _ f1 sl1).mp hc
      rw [hroots] at hq
      obtain ⟨hq1rid, hiidx⟩ := hw.inj q hq (rid, pgd) hmem i hi idx hidx hcc holdtype
        (by rw [hcf, holdframe]) (by rw [hcs, holdslot])
      have hqeq : q = (rid, pgd) := nodup_key_eq hw.ids_nodup hq hmem hq1rid
      have hpeq : p = (rid, Function.update pgd idx 0) :=
        nodup_key_eq hnu hp (mem_of_lookup hlku) (by rw [← hq1, hq1rid])
      simp only [hpeq, hqeq, hiidx, Function.update_same] at hqe
      rw [hold] at hqe
      omega
    · rw [hpe, coarseRefs_zero] at hc
      cases hc
  have hrb_old : refsBool s f1 sl1 = true := by
    apply (refsBool_true_iff s f1 sl1).mpr
    refine ⟨(rid, pgd), hmem, ?_⟩
    apply (refsFrom_true_iff pgd f1 sl1).mpr
    refine ⟨idx, hidx, ?_⟩
    rw [hold, coarseRefs_canon_iff f1 sl1 d1 f1 sl1 hsl1 hd1]
    simp
  have hcnt_sub : countRefs (updateRoot sfree rid (Function.update pgd idx 0)) f1 + 1 =
      countRefs s f1 := by
    unfold countRefs
    exact countP_range4_sub (refsBool s f1) _ sl1 hsl1
      (fun sl2 _ hne => hrb_ne f1 sl2 fun h => hne h.2) hrb_old hrb_new
  refine ⟨?_, hlu, by show sfree.nextRoot = _; exact hnr, ?_, hlku⟩
  · constructor
    · exact hnu
    · intro p hp
      show p.1 < sfree.nextRoot
      rw [hnr]
      rcases mem_updateRoot sfree rid _ p hp with ⟨hps, _⟩ | ⟨hp1, _, q, hq, hq1⟩
      · rw [hroots] at hps
        exact hw.ids_lt p hps
      · rw [hroots] at hq
        rw [hp1, ← hq1]
        exact hw.ids_lt q hq
    · intro p hp i hi
      show p.2 i = 0 ∨ ∃ f' sl' d', f' < sfree.nextFrame ∧ sl' < 4 ∧ d' < 16 ∧
        p.2 i = 4096 * f' + 1024 * sl' + 32 * d' + 1
      rw [hnf]
      rcases hchar p hp i with ⟨q, hq, _, hqe⟩ | ⟨_, _, hpe⟩
      · rw [hroots] at hq
        rw [← hqe]
        exact hw.canon q hq i hi
      · rw [hpe]
        exact Or.inl rfl
    · intro p hp q hq i hi j hj hcp hcq hfr hslq
      rcases hchar p hp i with ⟨qp, hqp, hqp1, hqpe⟩ | ⟨_, _, hpe⟩
      · rcases hchar q hq j with ⟨qq, hqq, hqq1, hqqe⟩ | ⟨_, _, hqe⟩
        · rw [hroots] at hqp hqq
          rw [← hqpe] at hcp hfr hslq
          rw [← hqqe] at hcq hfr hslq
          obtain ⟨h1, h2⟩ := hw.inj qp hqp qq hqq i hi j hj hcp hcq hfr hslq
          exact ⟨by rw [← hqp1, ← hqq1, h1], h2⟩
        · exfalso
          rw [hqe] at hcq
          simp [L1_TYPE_MASK, L1_TYPE_COARSE] at hcq
      · exfalso
        rw [hpe] at hcp
        simp [L1_TYPE_MASK, L1_TYPE_COARSE] at hcp
    · intro f2
      show (sfree.frames f2).priv = _
      rw [hprivs f2, holdframe]
      by_cases hf2 : f2 = f1
      · subst hf2
        rw [if_pos rfl, hw.count]
        omega
      · rw [if_neg hf2, hw.count]
        have : countRefs (updateRoot sfree rid (Function.update pgd idx 0)) f2 =
            countRefs s f2 := by
          unfold countRefs
          exact List.countP_congr fun sl2 _ => by rw [hrb_ne f2 sl2 fun h => hf2 h.1]
        rw [this]
    · intro f' sl' hu'
      have hu2 : s.l2_unused = some (f', sl') := by rw [← hlu]; exact hu'
      obtain ⟨h1, h2, h3⟩ := hw.bump f' sl' hu2
      refine ⟨h1, by rw [show (updateRoot sfree rid (Function.update pgd idx 0)).nextFrame =
        sfree.nextFrame from rfl, hnf]; exact h2, ?_⟩
      intro p hp i hi hc
      rcases hchar p hp i with ⟨q, hq, _, hqe⟩ | ⟨_, _, hpe⟩
      · rw [hroots] at hq
        rw [← hqe] at hc ⊢
        exact h3 q hq i hi hc
      · rw [hpe] at hc
        simp [L1_TYPE_MASK, L1_TYPE_COARSE] at hc
  · intro p hp
    rcases mem_updateRoot sfree rid _ p hp with ⟨hps, _⟩ | ⟨hp1, hp2, _⟩
    · rw [hroots] at hps
      exact ⟨p, hps, rfl, fun i => Or.inl rfl⟩
    · refine ⟨(rid, pgd), hmem, hp1.symm, ?_⟩
      intro i
      by_cases hii : i = idx
      · subst hii
        right
        rw [hp2, Function.update_same]
      · left
        rw [hp2, Function.update_noteq hii]

end ArmMmu

namespace ArmMmu

theorem some_eq_state {r ret : Int} {s s2 : MState}
    (h : (some (r, s) : Option (Int × MState)) = some (ret, s2)) : s2 = s := by
  simp only [Option.some.injEq, Prod.mk.injEq] at h
  exact h.2.symm

theorem WF_map_raw (s : MState) (hw : WF s) (rid gva pfn domain ap apx xn : Nat)
    (hg : gva >>> 20 < L1_TABLE_ENTRIES) (ret : Int) (s2 : MState)
    (h : __map_gva_to_pfn s rid gva pfn domain ap apx xn = some (ret, s2)) : WF s2 := by
  cases hlk : s.roots.lookup rid with
  | none =>
    simp only [__map_gva_to_pfn, hlk] at h
    rw [some_eq_state h]
    exact hw
  | some pgd =>
    simp only [__map_gva_to_pfn, hlk] at h
    by_cases hfa : pgd (gva >>> 20) &&& L1_TYPE_MASK = L1_TYPE_FAULT
    · rw [if_pos hfa] at h
      cases halloc : alloc_l2_shadow s with
      | mk fs sa =>
        obtain ⟨f, sl⟩ := fs
        rw [halloc] at h
        dsimp only at h
        rw [some_eq_state h]
        apply WF_writeWord
        have hspec := alloc_l2_shadow_spec s hw f sl sa halloc
        rw [mk_l1_entry_eq f sl _ hspec.1]
        exact WF_install_fault s hw rid pgd hlk _ hg hfa f sl sa halloc _
          (Nat.mod_lt _ (by norm_num))
    · rw [if_neg hfa] at h
      by_cases hco : pgd (gva >>> 20) &&& L1_TYPE_MASK = L1_TYPE_COARSE
      · rw [if_pos hco] at h
        rcases hw.canon (rid, pgd) (mem_of_lookup hlk) (gva >>> 20) hg with
          h0 | ⟨f1, sl1, d1, hf1, hsl1, hd1, hold⟩
        · have h0' : pgd (gva >>> 20) = 0 := h0
          rw [h0'] at hco
          simp [L1_TYPE_MASK, L1_TYPE_COARSE] at hco
        · have hold' : pgd (gva >>> 20) = 4096 * f1 + 1024 * sl1 + 32 * d1 + 1 := hold
          rw [hold', upd_domain_eq f1 sl1 d1 _ hsl1 hd1] at h
          split at h
          · rw [some_eq_state h]
            exact WF_install_coarse s hw rid pgd hlk _ hg f1 sl1 d1 hf1 hsl1 hd1 hold' _
              (Nat.mod_lt _ (by norm_num))
          · rw [some_eq_state h]
            apply WF_writeWord
            exact WF_install_coarse s hw rid pgd hlk _ hg f1 sl1 d1 hf1 hsl1 hd1 hold' _
              (Nat.mod_lt _ (by norm_num))
      · rw [if_neg hco] at h
        rw [some_eq_state h]
        exact hw

theorem WF_map (s : MState) (hw : WF s) (rid gva pfn domain priv_ap user_ap exec : Nat)
    (ret : Int) (s2 : MState)
    (h : map_gva_to_pfn s rid gva pfn domain priv_ap user_ap exec = some (ret, s2)) :
    WF s2 := by
  have hg : (gva &&& 0xffffffff) >>> 20 < L1_TABLE_ENTRIES := by
    have h1 : gva &&& 0xffffffff ≤ 0xffffffff := Nat.and_le_right
    rw [Nat.shiftRight_eq_div_pow, L1_TABLE_ENTRIES]
    omega
  simp only [map_gva_to_pfn] at h
  split at h
  · rw [some_eq_state h]
    exact hw
  · split at h
    · split at h
      · rw [some_eq_state h]
        exact hw
      · exact WF_map_raw s hw rid _ pfn domain _ _ exec hg ret s2 h
    · split at h
      · rw [some_eq_state h]
        exact hw
      · exact WF_map_raw s hw rid _ pfn domain _ _ exec hg ret s2 h

theorem WF_unmap_gva (s : MState) (hw : WF s) (rid gva : Nat) (ret : Int) (s2 : MState)
    (h : unmap_gva s rid gva = some (ret, s2)) : WF s2 := by
  simp only [unmap_gva] at h
  cases hlk : s.roots.lookup rid with
  | none =>
    simp only [hlk] at h
    rw [some_eq_state h]
    exact hw
  | some pgd =>
    simp only [hlk] at h
    split at h
    · rw [some_eq_state h]
      exact hw
    · split at h
      · split at h
        · rw [some_eq_state h]
          exact hw
        · rw [some_eq_state h]
          exact WF_writeWord s hw _ _ _
      · rw [some_eq_state h]
        exact hw

theorem WF_unmap_section (s : MState) (hw : WF s) (rid gva : Nat) (ret : Int) (s2 : MState)
    (h : unmap_gva_section s rid gva = some (ret, s2)) : WF s2 := by
  have hg : (gva &&& 0xffffffff) >>> 20 < L1_TABLE_ENTRIES := by
    have h1 : gva &&& 0xffffffff ≤ 0xffffffff := Nat.and_le_right
    rw [Nat.shiftRight_eq_div_pow, L1_TABLE_ENTRIES]
    omega
  simp only [unmap_gva_section] at h
  cases hlk : s.roots.lookup rid with
  | none =>
    simp only [hlk] at h
    rw [some_eq_state h]
    exact hw
  | some pgd =>
    simp only [hlk] at h
    split at h
    · rw [some_eq_state h]
      exact hw
    · split at h
      · rename_i hnfa hco
        split at h
        · cases h
        · rename_i sfree hfree
          rcases hw.canon (rid, pgd) (mem_of_lookup hlk) ((gva &&& 0xffffffff) >>> 20) hg with
            h0 | ⟨f1, sl1, d1, hf1, hsl1, hd1, hold⟩
          · have h0' : pgd ((gva &&& 0xffffffff) >>> 20) = 0 := h0
            rw [h0'] at hco
            simp [L1_TYPE_MASK, L1_TYPE_COARSE] at hco
          · have hold' : pgd ((gva &&& 0xffffffff) >>> 20) =
                4096 * f1 + 1024 * sl1 + 32 * d1 + 1 := hold
            rw [some_eq_state h]
            exact (WF_clear_coarse s hw rid pgd hlk _ hg f1 sl1 d1 hsl1 hd1 hold'
              _ sfree hfree).1
      · rw [some_eq_state h]
        exact hw

theorem WF_free_children_step (s : MState) (hw : WF s) (rid i : Nat)
    (hi : i < L1_TABLE_ENTRIES) (s2 : MState) (h : free_children_step s rid i = some s2) :
    WF s2 ∧ s2.l2_unused = s.l2_unused ∧ s2.nextRoot = s.nextRoot ∧
    (∀ p ∈ s2.roots, ∃ q ∈ s.roots, q.1 = p.1 ∧ ∀ i', p.2 i' = q.2 i' ∨ p.2 i' = 0) ∧
    (∀ pgd2, s2.roots.lookup rid = some pgd2 →
      pgd2 i &&& L1_TYPE_MASK ≠ L1_TYPE_COARSE) := by
  simp only [free_children_step] at h
  cases hlk : s.roots.lookup rid with
  | none =>
    simp only [hlk, Option.some.injEq] at h
    subst h
    refine ⟨hw, rfl, rfl, fun p hp => ⟨p, hp, rfl, fun _ => Or.inl rfl⟩, ?_⟩
    intro pgd2 hlk2
    rw [hlk2] at hlk
    cases hlk
  | some pgd =>
    simp only [hlk] at h
    split at h
    · rename_i hfa
      simp only [Option.some.injEq] at h
      subst h
      refine ⟨hw, rfl, rfl, fun p hp => ⟨p, hp, rfl, fun _ => Or.inl rfl⟩, ?_⟩
      intro pgd2 hlk2
      rw [hlk2] at hlk
      cases hlk
      rw [hfa]
      decide
    · split at h
      · rename_i hnfa hco
        split at h
        · cases h
        · rename_i sfree hfree
          simp only [Option.some.injEq] at h
          subst h
          rcases hw.canon (rid, pgd) (mem_of_lookup hlk) i hi with
            h0 | ⟨f1, sl1, d1, hf1, hsl1, hd1, hold⟩
          · have h0' : pgd i = 0 := h0
            rw [h0'] at hco
            simp [L1_TYPE_MASK, L1_TYPE_COARSE] at hco
          · have hold' : pgd i = 4096 * f1 + 1024 * sl1 + 32 * d1 + 1 := hold
            obtain ⟨hwf, hlu, hnr, her, hlku⟩ :=
              WF_clear_coarse s hw rid pgd hlk i hi f1 sl1 d1 hsl1 hd1 hold' _ sfree hfree
            refine ⟨hwf, hlu, hnr, her, ?_⟩
            intro pgd2 hlk2
            rw [hlk2] at hlku
            cases hlku
            rw [Function.update_same]
            decide
      · cases h

end ArmMmu

namespace ArmMmu

theorem WF_children_fold (l : List Nat) (s : MState) (rid : Nat) (s2 : MState)
    (hl : ∀ i ∈ l, i < L1_TABLE_ENTRIES) (hw : WF s)
    (h : l.foldl (fun acc i => match acc with
        | none => none
        | some s3 => free_children_step s3 rid i) (some s) = some s2) :
    WF s2 ∧ s2.l2_unused = s.l2_unused ∧ s2.nextRoot = s.nextRoot ∧
    (∀ p ∈ s2.roots, ∃ q ∈ s.roots, q.1 = p.1 ∧ ∀ i', p.2 i' = q.2 i' ∨ p.2 i' = 0) ∧
    (∀ i ∈ l, ∀ pgd2, s2.roots.lookup rid = some pgd2 →
      pgd2 i &&& L1_TYPE_MASK ≠ L1_TYPE_COARSE) := by
  induction l generalizing s with
  | nil =>
    simp only [List.foldl_nil, Option.some.injEq] at h
    subst h
    exact ⟨hw, rfl, rfl, fun p hp => ⟨p, hp, rfl, fun _ => Or.inl rfl⟩,
      fun i hi => absurd hi (List.not_mem_nil i)⟩
  | cons a t ih =>
    simp only [List.foldl_cons] at h
    cases hstep : free_children_step s rid a with
    | none =>
      rw [hstep, foldl_children_none] at h
      cases h
    | some s1 =>
      rw [hstep] at h
      obtain ⟨hw1, hlu1, hnr1, her1, hcl1⟩ :=
        WF_free_children_step s hw rid a (hl a (List.mem_cons_self a t)) s1 hstep
      obtain ⟨hw2, hlu2, hnr2, her2, hcl2⟩ :=
        ih s1 (fun i hi => hl i (List.mem_cons_of_mem a hi)) hw1 h
      refine ⟨hw2, hlu2.trans hlu1, hnr2.trans hnr1, ?_, ?_⟩
      · intro p hp
        obtain ⟨q, hq, hq1, hqe⟩ := her2 p hp
        obtain ⟨r, hr, hr1, hre⟩ := her1 q hq
        refine ⟨r, hr, hr1.trans hq1, ?_⟩
        intro i'
        rcases hqe i' with he | he
        · rcases hre i' with he2 | he2
          · exact Or.inl (he.trans he2)
          · exact Or.inr (he.trans he2)
        · exact Or.inr he
      · intro i hi pgd2 hlk2
        rcases List.mem_cons.mp hi with rfl | hit
        · obtain ⟨q, hq, hq1, hqe⟩ := her2 (rid, pgd2) (mem_of_lookup hlk2)
          have hqpair : (rid, q.2) = q := by
            rw [show q = (q.1, q.2) from rfl, hq1]
          have hlkq : s1.roots.lookup rid = some q.2 :=
            lookup_eq_of_mem hw1.ids_nodup (by rw [hqpair]; exact hq)
          have hnc := hcl1 q.2 hlkq
          rcases hqe i with he | he
          · show pgd2 i &&& L1_TYPE_MASK ≠ L1_TYPE_COARSE
            rw [show (rid, pgd2).2 = pgd2 from rfl] at he
            rw [he]
            exact hnc
          · show pgd2 i &&& L1_TYPE_MASK ≠ L1_TYPE_COARSE
            rw [show (rid, pgd2).2 = pgd2 from rfl] at he
            rw [he]
            decide
        · exact hcl2 i hit pgd2 hlk2

theorem WF_filter_root (s : MState) (hw : WF s) (rid : Nat)
    (hclean : ∀ p ∈ s.roots, p.1 = rid → ∀ sl f, refsFrom p.2 f sl = false) :
    WF { s with roots := s.roots.filter fun p => p.1 ≠ rid } := by
  have hsub : (s.roots.filter fun p => p.1 ≠ rid).Sublist s.roots := List.filter_sublist _
  have hmem : ∀ p ∈ s.roots.filter (fun p => p.1 ≠ rid), p ∈ s.roots :=
    fun p hp => List.mem_of_mem_filter hp
  constructor
  · exact hw.ids_nodup.sublist (hsub.map Prod.fst)
  · intro p hp
    exact hw.ids_lt p (hmem p hp)
  · intro p hp i hi
    exact hw.canon p (hmem p hp) i hi
  · intro p hp q hq i hi j hj
    exact hw.inj p (hmem p hp) q (hmem q hq) i hi j hj
  · intro f
    show (s.frames f).priv = _
    rw [hw.count]
    unfold countRefs
    apply List.countP_congr
    intro sl _
    suffices hs : refsBool { s with roots := s.roots.filter fun p => p.1 ≠ rid } f sl =
        refsBool s f sl by rw [hs]
    unfold refsBool
    show (s.roots.filter fun p => p.1 ≠ rid).any _ = _
    apply list_any_filter
    intro p hp hq
    apply hclean p hp
    simpa using hq
  · intro f sl hu
    obtain ⟨h1, h2, h3⟩ := hw.bump f sl hu
    exact ⟨h1, h2, fun p hp => h3 p (hmem p hp)⟩

theorem WF_free_root (s : MState) (hw : WF s) (rid : Nat) (s2 : MState)
    (h : kvm_free_l1_shadow s rid = some s2) : WF s2 := by
  simp only [kvm_free_l1_shadow, free_l1_shadow_children] at h
  by_cases hlk : (s.roots.lookup rid).isNone
  · rw [if_pos hlk] at h
    simp only [Option.some.injEq] at h
    subst h
    apply WF_filter_root s hw rid
    intro p hp hp1
    exfalso
    have := lookup_none_keys (Option.isNone_iff_eq_none.mp hlk) p hp
    exact this hp1
  · rw [if_neg hlk] at h
    cases hfold : __free_l1_shadow_children s rid with
    | none =>
      simp only [hfold] at h
      cases h
    | some s3 =>
      simp only [hfold] at h
      simp only [Option.some.injEq] at h
      subst h
      unfold __free_l1_shadow_children at hfold
      obtain ⟨hw3, hlu3, hnr3, her3, hcl3⟩ :=
        WF_children_fold (List.range L1_TABLE_ENTRIES) s rid s3
          (fun i hi => List.mem_range.mp hi) hw hfold
      have hw4 : WF { s3 with l2_unused := none } := by
        refine WF_congr s3 _ hw3 rfl rfl rfl (Or.inr rfl) (fun f => rfl)
      apply WF_filter_root _ hw4 rid
      intro p hp hp1
      intro sl f
      apply refsFrom_false_of_all
      intro i hi
      apply coarseRefs_of_not_coarse
      have hpp : (rid, p.2) = p := by
        rw [show p = (p.1, p.2) from rfl, hp1]
      have hlkp : s3.roots.lookup rid = some p.2 :=
        lookup_eq_of_mem hw3.ids_nodup (by rw [hpp]; exact hp)
      exact hcl3 i (List.mem_range.mpr hi) p.2 hlkp

end ArmMmu

namespace ArmMmu

theorem WF_initState (dacr : Nat) (xp hvh : Bool) (spb tsz gvp cr : Nat) :
    WF (initState dacr xp hvh spb tsz gvp cr) := by
  constructor
  · simp [initState]
  · intro p hp
    exact absurd hp (List.not_mem_nil p)
  · intro p hp
    exact absurd hp (List.not_mem_nil p)
  · intro p hp
    exact absurd hp (List.not_mem_nil p)
  · intro f
    show (0:Nat) = _
    symm
    unfold countRefs
    rw [List.countP_eq_zero]
    intro sl _
    simp [refsBool, initState]
  · intro f sl hu
    exact absurd hu (by simp [initState])

theorem WF_stepOp (s : MState) (hw : WF s) (op : MOp) (s2 : MState)
    (h : stepOp s op = some s2) : WF s2 := by
  cases op with
  | allocRoot =>
    simp only [stepOp, Option.some.injEq] at h
    subst h
    exact WF_allocRoot s hw
  | install rid gva pfn domain priv_ap user_ap exec =>
    simp only [stepOp] at h
    cases hm : map_gva_to_pfn s rid gva pfn domain priv_ap user_ap exec with
    | none =>
      rw [hm] at h
      cases h
    | some p =>
      obtain ⟨ret, st⟩ := p
      rw [hm] at h
      simp only [Option.map_some', Option.some.injEq] at h
      subst h
      exact WF_map s hw rid gva pfn domain priv_ap user_ap exec ret _ hm
  | unmapPage rid gva =>
    simp only [stepOp] at h
    cases hm : unmap_gva s rid gva with
    | none =>
      rw [hm] at h
      cases h
    | some p =>
      obtain ⟨ret, st⟩ := p
      rw [hm] at h
      simp only [Option.map_some', Option.some.injEq] at h
      subst h
      exact WF_unmap_gva s hw rid gva ret _ hm
  | unmapSection rid gva =>
    simp only [stepOp] at h
    cases hm : unmap_gva_section s rid gva with
    | none =>
      rw [hm] at h
      cases h
    | some p =>
      obtain ⟨ret, st⟩ := p
      rw [hm] at h
      simp only [Option.map_some', Option.some.injEq] at h
      subst h
      exact WF_unmap_section s hw rid gva ret _ hm
  | freeRoot rid =>
    simp only [stepOp] at h
    exact WF_free_root s hw rid s2 h

theorem WF_runOps (s : MState) (ops : List MOp) (s2 : MState) (hw : WF s)
    (h : runOps s ops = some s2) : WF s2 := by
  induction ops generalizing s with
  | nil =>
    simp only [runOps, Option.some.injEq] at h
    subst h
    exact hw
  | cons op t ih =>
    simp only [runOps] at h
    cases hstep : stepOp s op with
    | none =>
      simp only [hstep] at h
      cases h
    | some s1 =>
      simp only [hstep] at h
      exact ih s1 (WF_stepOp s hw op s1 hstep) h

/-- C2 (amended): starting from the fresh shadow-manager state, after any
successful sequence of root allocations, installs, page unmaps, section
unmaps and root frees, every host frame's live sub-table count
(`page_private`) equals the number of its four 1 KiB sub-table slots
currently referenced by a Coarse L1 entry of a live shadow root, and that
count never exceeds 4. -/
theorem subtable_count_matches_live_refs (dacr : Nat) (xp hvh : Bool)
    (spb tsz gvp cr : Nat) (ops : List MOp) (s2 : MState)
    (h : runOps (initState dacr xp hvh spb tsz gvp cr) ops = some s2) :
    ∀ f, (s2.frames f).priv = countRefs s2 f ∧ countRefs s2 f ≤ 4 := by
  have hw := WF_runOps _ ops s2 (WF_initState dacr xp hvh spb tsz gvp cr) h
  intro f
  refine ⟨hw.count f, ?_⟩
  unfold countRefs
  calc (List.range 4).countP _ ≤ (List.range 4).length := List.countP_le_length _
  _ = 4 := by simp

theorem subtable_count_matches_live_refs_witness :
    runOps (initState 3 true true 0xf1600000 0xbf000000 0x99 0) [MOp.allocRoot] =
      some (kvm_alloc_l1_shadow (initState 3 true true 0xf1600000 0xbf000000 0x99 0)) ∧
    ∀ f, ((kvm_alloc_l1_shadow
          (initState 3 true true 0xf1600000 0xbf000000 0x99 0)).frames f).priv =
        countRefs (kvm_alloc_l1_shadow (initState 3 true true 0xf1600000 0xbf000000 0x99 0)) f ∧
      countRefs (kvm_alloc_l1_shadow (initState 3 true true 0xf1600000 0xbf000000 0x99 0)) f ≤ 4 :=
  ⟨rfl, subtable_count_matches_live_refs 3 true true 0xf1600000 0xbf000000 0x99 0
    [MOp.allocRoot] _ rfl⟩

set_option maxRecDepth 100000 in
/-- C2 counterexample: install one page, then unmap it with `unmap_gva`
(unmap_page).  The sub-table's host frame keeps `page_private` = 1 — the
Coarse L1 entry still references the sub-table — but every L2 entry of every
slot of the frame is Fault again, so the number of slots holding at least
one non-Fault entry is 0, not 1: the claimed equation fails. -/
theorem subtable_count_mismatch_after_unmap_page :
    (runOps (initState 0x3 true true 0xf1600000 0xbf000000 0x99 0)
        [MOp.allocRoot,
         MOp.install 0 0x00100000 0x55 0 KVM_AP_RDWRITE KVM_AP_NONE 0,
         MOp.unmapPage 0 0x00100000]).map
      (fun s2 => ((s2.frames 0).priv, countNonFaultSlots s2 0)) = some (1, 0) := by
  decide

end ArmMmu
